import Mathlib

/-!
Verification of the mercator recipe synthesis, validation and lifecycle
engine against its natural-language specification.

The TypeScript sources are shallowly embedded.  JavaScript `number`
values are modelled as rationals (`ℚ`), JavaScript integers as `Int`/`Nat`,
and `Math.round` as `jsRound` (floor of `x + 1/2`, which is exactly what
`Math.round` computes).  External facilities that the embedded code only
calls through a narrow interface — the WHATWG `URL` parser, the cheerio
DOM query engine and the zod `ProductSchema.parse` runtime validator —
are abstracted as explicit function parameters; everything downstream of
those calls is translated from the source line by line.
-/

namespace Mercator

/-- Comparison status used throughout the comparator and validator
(the TypeScript string union `'pass' | 'fail'`). -/
inductive CompareStatus where
  | pass
  | fail
deriving DecidableEq, Repr

/-- `clampConfidence` from `validation.ts`: clamps a confidence value into
`[0, 1]`.  The source's `Number.isNaN` guard cannot fire in the rational
model (no division by zero is reachable: every divisor is guarded), so the
clamp is `min 1 (max 0 value)`. -/
def clampConfidence (value : ℚ) : ℚ :=
  min 1 (max 0 value)

/-- JavaScript `Math.round`: floor of `x + 1/2` (half-way values round
toward positive infinity, exactly as `Math.round` does). -/
def jsRound (q : ℚ) : ℤ :=
  ⌊q + 1/2⌋

/-- Rendering of a non-negative rational with a fixed number of decimal
digits, modelling `Number.prototype.toFixed` on the non-negative values
the source formats into notes/error strings. -/
def qToFixed (q : ℚ) (digits : ℕ) : String :=
  let base : ℤ := ((10 : ℕ) ^ digits : ℕ)
  let scaled : ℤ := jsRound (q * (base : ℚ))
  let ip : ℤ := scaled / base
  let fp : ℕ := (scaled % base).toNat
  let fpStr : String := toString fp
  let pad : String := String.mk (List.replicate (digits - fpStr.length) '0')
  if digits = 0 then toString ip else toString ip ++ "." ++ pad ++ fpStr

/-- One step of `value.replace(/\s+/g, ' ')`: every maximal run of
whitespace characters becomes a single space.  `prevWs` records whether
the previous character belonged to a whitespace run. -/
def collapseWsChars : List Char → Bool → List Char
  | [], _ => []
  | c :: rest, prevWs =>
    if c.isWhitespace then
      if prevWs then collapseWsChars rest true
      else ' ' :: collapseWsChars rest true
    else c :: collapseWsChars rest false

/-- `value.replace(/\s+/g, ' ')` on strings. -/
def jsCollapseWs (s : String) : String :=
  String.mk (collapseWsChars s.data false)

/-- JavaScript `String.prototype.trim` (whitespace at both ends removed). -/
def jsTrim (s : String) : String :=
  String.mk (((s.data.dropWhile Char.isWhitespace).reverse.dropWhile Char.isWhitespace).reverse)

/-- JavaScript `String.prototype.toLowerCase` restricted to the character
data the embedded code feeds it. -/
def jsToLower (s : String) : String :=
  String.mk (s.data.map Char.toLower)

/-- Splitting a character list at every separator character (the split
semantics of `String.split`, with empty pieces kept). -/
def splitCharsAux (p : Char → Bool) : List Char → List Char → List String
  | [], acc => [String.mk acc.reverse]
  | c :: rest, acc =>
    if p c then String.mk acc.reverse :: splitCharsAux p rest []
    else splitCharsAux p rest (c :: acc)

/-- String split on a character predicate. -/
def strSplit (s : String) (p : Char → Bool) : List String :=
  splitCharsAux p s.data []

/-- Substring test: JavaScript `haystack.includes(needle)`. -/
def strIncludes (haystack needle : String) : Bool :=
  decide (needle.data <:+: haystack.data)

/-- `levenshteinDistance` from `validation.ts`.  The source fills an
`(|a|+1) × (|b|+1)` dynamic-programming matrix with
`m[i][0] = i`, `m[0][j] = j` and
`m[i][j] = m[i-1][j-1]` when the compared characters agree, otherwise
`min(m[i-1][j-1], m[i-1][j], m[i][j-1]) + 1`, and returns the bottom-right
entry.  This definition is that same recurrence written as structural
recursion (the dynamic program is its bottom-up memoisation). -/
def levenshteinDistance : List Char → List Char → ℕ
  | [], bs => bs.length
  | a :: as, [] => (a :: as).length
  | a :: as, b :: bs =>
    if a = b then levenshteinDistance as bs
    else
      min (levenshteinDistance as bs)
        (min (levenshteinDistance as (b :: bs)) (levenshteinDistance (a :: as) bs)) + 1
termination_by a b => (a.length, b.length)

/-- `normalizeText` from `validation.ts`: optional trim, collapse of
whitespace runs, optional lowercasing. -/
def normalizeText (value : String) (trim : Bool) (caseSensitive : Bool) : String :=
  let trimmed := if trim then jsTrim value else value
  let collapsed := jsCollapseWs trimmed
  if caseSensitive then collapsed else jsToLower collapsed

/-- `Money` from `schemas.ts` (`MoneySchema`): amount is a non-negative
number, `precision` an integer in `0..4`, `raw` an optional source text.
The zod bounds are not baked into the type; theorems that need them take
them as hypotheses. -/
structure Money where
  amount : ℚ
  currencyCode : String
  precision : ℕ
  raw : Option String
deriving DecidableEq, Repr

/-- `toMinorUnits` from `validation.ts`: `Math.round(amount * 10^precision)`. -/
def toMinorUnits (money : Money) : ℤ :=
  jsRound (money.amount * ((10 : ℕ) ^ money.precision : ℕ))

/-- `AggregateRating` from `schemas.ts` (only the fields the embedded code
reads). -/
structure AggregateRating where
  ratingValue : ℚ
  reviewCount : Option ℕ
  bestRating : Option ℚ
  worstRating : Option ℚ
  url : Option String
deriving DecidableEq, Repr

/-- `Breadcrumb` from `schemas.ts`: label, optional url, optional 1-based
position. -/
structure Breadcrumb where
  label : String
  url : Option String
  position : Option ℕ
deriving DecidableEq, Repr

/-- Text tolerance (`TextToleranceSchema`): after zod parsing every field
is present, so the `?? default` fallbacks in the comparator are inert. -/
structure TextTolerance where
  trim : Bool
  caseSensitive : Bool
  maxDistanceRatio : ℚ
deriving DecidableEq, Repr

/-- Money tolerance (`MoneyToleranceSchema`). -/
structure MoneyTolerance where
  maxAbsoluteMinorUnits : ℕ
  maxRelativeDifference : ℚ
deriving DecidableEq, Repr

/-- Url tolerance (`UrlToleranceSchema`). -/
structure UrlTolerance where
  normalizeTrailingSlash : Bool
  ignoreQuery : Bool
deriving DecidableEq, Repr

/-- Image tolerance (`ImageToleranceSchema`). -/
structure ImageTolerance where
  ignoreQuery : Bool
deriving DecidableEq, Repr

/-- Rating tolerance (`RatingToleranceSchema`). -/
structure RatingTolerance where
  maxDelta : ℚ
deriving DecidableEq, Repr

/-- Breadcrumb tolerance (`BreadcrumbToleranceSchema`). -/
structure BreadcrumbTolerance where
  allowReordering : Bool
  maxMissing : ℕ
deriving DecidableEq, Repr

/-- `RecipeTolerance` from `tolerances.ts`: the discriminated union over
the six tolerance kinds. -/
inductive RecipeTolerance where
  | text (t : TextTolerance)
  | money (t : MoneyTolerance)
  | url (t : UrlTolerance)
  | image (t : ImageTolerance)
  | rating (t : RatingTolerance)
  | breadcrumbs (t : BreadcrumbTolerance)
deriving DecidableEq, Repr

/-- The result record shared by all comparators in `validation.ts`. -/
structure CompareOutcome where
  status : CompareStatus
  confidence : ℚ
  notes : List String
  errors : List String
deriving DecidableEq, Repr

/-- `compareText` from `validation.ts`: normalize both strings, take the
Levenshtein ratio against the longer normalized length (at least 1), pass
iff the ratio is within `maxDistanceRatio`. -/
def compareText (expected actual : String) (tolerance : TextTolerance) : CompareOutcome :=
  let normalizedExpected := normalizeText expected tolerance.trim tolerance.caseSensitive
  let normalizedActual := normalizeText actual tolerance.trim tolerance.caseSensitive
  let distance := levenshteinDistance normalizedExpected.data normalizedActual.data
  let maxLength := max (max normalizedExpected.length normalizedActual.length) 1
  let ratio : ℚ := (distance : ℚ) / (maxLength : ℚ)
  let pass := ratio ≤ tolerance.maxDistanceRatio
  let confidence := clampConfidence (1 - ratio)
  let notes := ["Levenshtein ratio " ++ qToFixed ratio 3 ++ " (threshold " ++
    toString tolerance.maxDistanceRatio ++ ")"]
  let errors := if pass then [] else ["Text difference " ++ qToFixed ratio 3 ++ " exceeds tolerance"]
  { status := if pass then .pass else .fail
    confidence := confidence
    notes := notes
    errors := errors }

/-- `compareMoney` from `validation.ts`: integer minor-unit delta must be
within `maxAbsoluteMinorUnits` AND the relative amount delta within
`maxRelativeDifference` (relative delta treated as 0 when the expected
amount is 0). -/
def compareMoney (expected actual : Money) (tolerance : MoneyTolerance) : CompareOutcome :=
  let expectedMinor := toMinorUnits expected
  let actualMinor := toMinorUnits actual
  let diffMinor : ℕ := (expectedMinor - actualMinor).natAbs
  let relative : ℚ := if expected.amount = 0 then 0 else |expected.amount - actual.amount| / expected.amount
  let withinAbsolute := diffMinor ≤ tolerance.maxAbsoluteMinorUnits
  let withinRelative := relative ≤ tolerance.maxRelativeDifference
  let pass := withinAbsolute ∧ withinRelative
  let confidence := clampConfidence (if pass then 1 - relative else max 0 (1 - relative))
  let notes := ["Minor unit delta " ++ toString diffMinor, "Relative delta " ++ qToFixed relative 3]
  let errors := if pass then [] else
    ["Price delta " ++ toString diffMinor ++ " minor units, relative " ++
      qToFixed relative 3 ++ " exceeds tolerance"]
  { status := if pass then .pass else .fail
    confidence := confidence
    notes := notes
    errors := errors }

/-- The field identifiers of `RecipeFieldIdSchema` in `tolerances.ts`. -/
inductive FieldId where
  | id
  | title
  | canonicalUrl
  | description
  | price
  | images
  | thumbnail
  | aggregateRating
  | breadcrumbs
  | brand
  | sku
deriving DecidableEq, Repr

/-- The string form of a field id, as it appears in messages. -/
def FieldId.name : FieldId → String
  | .id => "id"
  | .title => "title"
  | .canonicalUrl => "canonicalUrl"
  | .description => "description"
  | .price => "price"
  | .images => "images"
  | .thumbnail => "thumbnail"
  | .aggregateRating => "aggregateRating"
  | .breadcrumbs => "breadcrumbs"
  | .brand => "brand"
  | .sku => "sku"

/-- Abstraction of the WHATWG `URL` parser used by `normalizeUrl` in
`validation.ts`.  `tryNormalize value ignoreQuery normalizeTrailingSlash`
is `some` of the re-serialized URL after the configured normalizations, or
`none` when `new URL(value)` would throw.  The surrounding `try`/`catch`
logic is embedded in `normalizeUrl` below. -/
structure UrlOps where
  tryNormalize : String → Bool → Bool → Option String

/-- `normalizeUrl` from `validation.ts`: parse and normalize the URL;
on a parse failure fall back to the trimmed raw string. -/
def normalizeUrl (ops : UrlOps) (value : String) (ignoreQuery normalizeTrailingSlash : Bool) : String :=
  match ops.tryNormalize value ignoreQuery normalizeTrailingSlash with
  | some normalized => normalized
  | none => jsTrim value

/-- The `'url' | 'image'` tolerance argument of `compareUrl`. -/
inductive UrlOrImageTolerance where
  | url (t : UrlTolerance)
  | image (t : ImageTolerance)
deriving DecidableEq, Repr

/-- `compareUrl` from `validation.ts`: normalize both URLs (an image
tolerance defaults `ignoreQuery` through its own field and always collapses
the trailing slash) and pass iff the normalized strings are equal; binary
confidence. -/
def compareUrl (ops : UrlOps) (expected actual : String) (tolerance : UrlOrImageTolerance) : CompareOutcome :=
  let ignoreQuery := match tolerance with
    | .image t => t.ignoreQuery
    | .url t => t.ignoreQuery
  let normalizeTrailingSlash := match tolerance with
    | .image _ => true
    | .url t => t.normalizeTrailingSlash
  let normalizedExpected := normalizeUrl ops expected ignoreQuery normalizeTrailingSlash
  let normalizedActual := normalizeUrl ops actual ignoreQuery normalizeTrailingSlash
  let pass := normalizedExpected = normalizedActual
  { status := if pass then .pass else .fail
    confidence := if pass then 1 else 0
    notes := ["Normalized expected " ++ normalizedExpected, "Normalized actual " ++ normalizedActual]
    errors := if pass then [] else ["URLs differ after normalization"] }

/-- `compareImageArray` from `validation.ts`: normalize every URL, count
the expected URLs present in the normalized actual set, pass iff all are
present; confidence is the matched fraction. -/
def compareImageArray (ops : UrlOps) (expected actual : List String) (tolerance : ImageTolerance) : CompareOutcome :=
  let expectedNormalized := expected.map (fun value => normalizeUrl ops value tolerance.ignoreQuery true)
  let actualNormalized := actual.map (fun value => normalizeUrl ops value tolerance.ignoreQuery true)
  let matchCount := expectedNormalized.countP (fun value => actualNormalized.contains value)
  let pass := matchCount = expectedNormalized.length
  { status := if pass then .pass else .fail
    confidence := clampConfidence ((matchCount : ℚ) / (max expectedNormalized.length 1 : ℕ))
    notes := ["Matched " ++ toString matchCount ++ "/" ++ toString expectedNormalized.length ++ " images"]
    errors := if pass then [] else
      ["Missing " ++ toString (expectedNormalized.length - matchCount) ++ " expected images"] }

/-- `compareRating` from `validation.ts`.  The guard for an `undefined`
`ratingValue` in the source is unreachable here because the typed model
makes `ratingValue` mandatory (the call site has already checked
`typeof ratingValue === 'number'`). -/
def compareRating (expected actual : AggregateRating) (tolerance : RatingTolerance) : CompareOutcome :=
  let delta := |expected.ratingValue - actual.ratingValue|
  let maxDelta := tolerance.maxDelta
  let pass := delta ≤ maxDelta
  let normalized : ℚ := if 0 < maxDelta then 1 - delta / maxDelta else if delta = 0 then 1 else 0
  { status := if pass then .pass else .fail
    confidence := clampConfidence (if pass then normalized else 0)
    notes := ["Rating delta " ++ qToFixed delta 2]
    errors := if pass then [] else
      ["Rating delta " ++ qToFixed delta 2 ++ " exceeds tolerance " ++ toString maxDelta] }

/-- Equality test used twice in `compareBreadcrumbs`:
`entry.label.trim() === crumb.label.trim() && (entry.url ?? null) === (crumb.url ?? null)`. -/
def crumbMatches (entry crumb : Breadcrumb) : Bool :=
  jsTrim entry.label == jsTrim crumb.label && entry.url == crumb.url

/-- The `forEach` of `compareBreadcrumbs`: for the expected crumb at index
`i`, the candidate is the positional entry (`actual[index]`) or, with
reordering allowed, the first exact `(label, url)` match anywhere; the
crumb counts as matched when the candidate exists and matches. -/
def breadcrumbMatchCount (actual : List Breadcrumb) (tolerance : BreadcrumbTolerance) :
    List Breadcrumb → ℕ → ℕ
  | [], _ => 0
  | crumb :: rest, index =>
    let candidate := if tolerance.allowReordering then
        actual.find? (fun entry => crumbMatches entry crumb)
      else actual.get? index
    (match candidate with
      | none => 0
      | some c => if crumbMatches c crumb then 1 else 0) +
      breadcrumbMatchCount actual tolerance rest (index + 1)

/-- `compareBreadcrumbs` from `validation.ts`: pass iff the number of
unmatched expected crumbs is within `maxMissing`; confidence is the
matched fraction. -/
def compareBreadcrumbs (expected actual : List Breadcrumb) (tolerance : BreadcrumbTolerance) : CompareOutcome :=
  let matchCount := breadcrumbMatchCount actual tolerance expected 0
  let missing := expected.length - matchCount
  let pass := missing ≤ tolerance.maxMissing
  { status := if pass then .pass else .fail
    confidence := clampConfidence ((matchCount : ℚ) / (max expected.length 1 : ℕ))
    notes := ["Matched " ++ toString matchCount ++ "/" ++ toString expected.length ++ " breadcrumbs"]
    errors := if pass then [] else
      ["Missing " ++ toString missing ++ " breadcrumbs exceeds tolerance " ++
        toString tolerance.maxMissing] }

/-- The dynamically-typed (`unknown`) values flowing between extraction,
validation and schema parsing.  Constructors mirror the JavaScript value
shapes the embedded code distinguishes: `undefined`, `null`, strings,
numbers, `Money`-shaped objects, aggregate-rating objects, breadcrumb
objects and arrays. -/
inductive JsValue where
  | undefined
  | nullv
  | str (s : String)
  | num (q : ℚ)
  | money (m : Money)
  | rating (r : AggregateRating)
  | crumb (b : Breadcrumb)
  | arr (xs : List JsValue)

/-- `isMoneyValue` from `validation.ts` (object with numeric `amount` and
string `currencyCode`). -/
def isMoneyValue : JsValue → Bool
  | .money _ => true
  | _ => false

/-- `isStringArray` from `validation.ts`. -/
def isStringArray : JsValue → Bool
  | .arr xs => xs.all (fun v => match v with | .str _ => true | _ => false)
  | _ => false

/-- `isAggregateRatingValue` from `validation.ts` (object with numeric
`ratingValue`). -/
def isAggregateRatingValue : JsValue → Bool
  | .rating _ => true
  | _ => false

/-- `isBreadcrumbArray` from `validation.ts` (array of objects with a
string `label`). -/
def isBreadcrumbArray : JsValue → Bool
  | .arr xs => xs.all (fun v => match v with | .crumb _ => true | _ => false)
  | _ => false

/-- Projection of a string array out of a `JsValue` known to satisfy
`isStringArray`. -/
def getStrings : JsValue → List String
  | .arr xs => xs.filterMap (fun v => match v with | .str s => some s | _ => none)
  | _ => []

/-- Projection of a breadcrumb array out of a `JsValue` known to satisfy
`isBreadcrumbArray`. -/
def getCrumbs : JsValue → List Breadcrumb
  | .arr xs => xs.filterMap (fun v => match v with | .crumb b => some b | _ => none)
  | _ => []

/-- The `fail / confidence 0` outcome each guard in `compareWithTolerance`
produces. -/
def mismatchOutcome (error : String) : CompareOutcome :=
  { status := .fail, confidence := 0, notes := [], errors := [error] }

/-- `value === undefined` on dynamic values. -/
def isUndefinedValue : JsValue → Bool
  | .undefined => true
  | _ => false

/-- String guard (`typeof value === 'string'`). -/
def isStringValue : JsValue → Bool
  | .str _ => true
  | _ => false

/-- Projection of a string out of a `JsValue` known to satisfy
`isStringValue`. -/
def getString : JsValue → String
  | .str s => s
  | _ => ""

/-- Projection of a `Money` out of a `JsValue` known to satisfy
`isMoneyValue`. -/
def getMoney : JsValue → Money
  | .money m => m
  | _ => ⟨0, "", 0, none⟩

/-- Projection of an `AggregateRating` out of a `JsValue` known to satisfy
`isAggregateRatingValue`. -/
def getRating : JsValue → AggregateRating
  | .rating r => r
  | _ => ⟨0, none, none, none, none⟩

/-- `compareWithTolerance` from `validation.ts`: the shared
expected/actual-`undefined` guard, then dispatch on the tolerance kind
with the source's shape guards (each re-stated as a Boolean guard plus a
projection); every shape mismatch is a hard fail with confidence 0 and a
descriptive error. -/
def compareWithTolerance (ops : UrlOps) (fieldId : FieldId) (expected actual : JsValue)
    (tolerance : RecipeTolerance) : CompareOutcome :=
  if isUndefinedValue expected || isUndefinedValue actual then
    mismatchOutcome ("Missing expected or actual value for field " ++ fieldId.name)
  else
    match tolerance with
    | .text t =>
      if isStringValue expected && isStringValue actual then
        compareText (getString expected) (getString actual) t
      else mismatchOutcome ("Expected string comparison for field " ++ fieldId.name)
    | .money t =>
      if isMoneyValue expected && isMoneyValue actual then
        compareMoney (getMoney expected) (getMoney actual) t
      else mismatchOutcome ("Expected monetary values for field " ++ fieldId.name)
    | .url t =>
      if isStringValue expected && isStringValue actual then
        compareUrl ops (getString expected) (getString actual) (.url t)
      else mismatchOutcome ("Expected URL strings for field " ++ fieldId.name)
    | .image t =>
      if isStringArray expected && isStringArray actual then
        compareImageArray ops (getStrings expected) (getStrings actual) t
      else if isStringValue expected && isStringValue actual then
        compareUrl ops (getString expected) (getString actual) (.image t)
      else mismatchOutcome ("Expected image values for field " ++ fieldId.name)
    | .rating t =>
      if isAggregateRatingValue expected && isAggregateRatingValue actual then
        compareRating (getRating expected) (getRating actual) t
      else mismatchOutcome ("Expected aggregate rating objects for field " ++ fieldId.name)
    | .breadcrumbs t =>
      if isBreadcrumbArray expected && isBreadcrumbArray actual then
        compareBreadcrumbs (getCrumbs expected) (getCrumbs actual) t
      else mismatchOutcome ("Expected breadcrumb arrays for field " ++ fieldId.name)

/-- `Product` from `schemas.ts` (`ProductSchema`): title, canonical URL,
price and at least one image are required; everything else optional.  The
zod refinements (non-empty title, URL shape, image count) live in the
abstracted parser, not in the type. -/
structure Product where
  id : Option String
  title : String
  canonicalUrl : String
  description : Option String
  price : Money
  images : List String
  thumbnail : Option String
  aggregateRating : Option AggregateRating
  breadcrumbs : Option (List Breadcrumb)
  brand : Option String
  sku : Option String
deriving Repr

/-- `getExpectedValue` / `getActualValue` from `validation.ts`: project the
product field named by `FIELD_TO_PRODUCT_KEY` (which maps every field id to
the identically-named product key) into the dynamic value space; an absent
optional field reads as `undefined`. -/
def productFieldValue (fieldId : FieldId) (product : Product) : JsValue :=
  match fieldId with
  | .id => (product.id.map JsValue.str).getD .undefined
  | .title => .str product.title
  | .canonicalUrl => .str product.canonicalUrl
  | .description => (product.description.map JsValue.str).getD .undefined
  | .price => .money product.price
  | .images => .arr (product.images.map JsValue.str)
  | .thumbnail => (product.thumbnail.map JsValue.str).getD .undefined
  | .aggregateRating => (product.aggregateRating.map JsValue.rating).getD .undefined
  | .breadcrumbs => (product.breadcrumbs.map (fun l => JsValue.arr (l.map JsValue.crumb))).getD .undefined
  | .brand => (product.brand.map JsValue.str).getD .undefined
  | .sku => (product.sku.map JsValue.str).getD .undefined

/-- Selector strategies of `SelectorStepSchema`. -/
inductive SelectorStrategy where
  | css
  | xpath
deriving DecidableEq, Repr

/-- `SelectorStep` from `recipe.ts` (the optional Playwright directive is
dropped: nothing in the embedded code reads it). -/
structure SelectorStep where
  strategy : SelectorStrategy
  value : String
  «attribute» : Option String
  ordinal : Option ℕ
  all : Bool
  note : Option String
deriving DecidableEq, Repr

/-- Transform names of `TransformNameSchema`. -/
inductive TransformName where
  | textCollapse
  | moneyParse
  | urlResolve
deriving DecidableEq, Repr

/-- A transform invocation; the per-transform option records are carried
opaquely (they only matter inside `applyTransform`, which sits behind the
extraction abstraction). -/
structure TransformInvocation where
  name : TransformName
deriving DecidableEq, Repr

/-- Validator declarations of `ValidatorSchema`. -/
inductive RecipeValidator where
  | required
  | regex (pattern : String) (flags : Option String)
  | minLength (value : ℕ)
deriving DecidableEq, Repr

/-- Field metrics from `FieldMetricsSchema`. -/
structure FieldMetrics where
  sampleCount : ℕ
  passCount : ℕ
  failCount : ℕ
deriving DecidableEq, Repr

/-- `FieldRecipe` from `recipe.ts`. -/
structure FieldRecipe where
  fieldId : FieldId
  description : Option String
  selectorSteps : List SelectorStep
  transforms : List TransformInvocation
  tolerance : RecipeTolerance
  validators : List RecipeValidator
  metrics : FieldMetrics

/-- Lifecycle states of `LifecycleStateSchema`. -/
inductive LifecycleState where
  | draft
  | candidate
  | stable
  | retired
deriving DecidableEq, Repr

/-- `LifecycleEvent` from `recipe.ts`; timestamps are modelled as integer
epoch milliseconds (`Date#getTime`). -/
structure LifecycleEvent where
  state : LifecycleState
  «at» : ℤ
  actor : Option String
  notes : Option String
deriving Repr

/-- `RecipeLifecycle` from `recipe.ts`. -/
structure RecipeLifecycle where
  state : LifecycleState
  since : ℤ
  history : List LifecycleEvent
deriving Repr

/-- Recipe-level metrics from `RecipeMetricsSchema`. -/
structure RecipeMetrics where
  totalRuns : ℕ
  successfulRuns : ℕ
deriving DecidableEq, Repr

/-- `ProvenanceRecord` from `recipe.ts`. -/
structure ProvenanceRecord where
  fieldId : FieldId
  evidence : String
  confidence : ℚ
  notes : Option String
deriving Repr

/-- `RecipeTarget` from `recipe.ts`; `documentType` is the literal
`'product'` and is omitted. -/
structure RecipeTarget where
  schema : Product
  fields : List FieldRecipe

/-- `Recipe` from `recipe.ts`. -/
structure Recipe where
  id : Option String
  name : String
  version : String
  description : Option String
  createdAt : ℤ
  updatedAt : ℤ
  createdBy : Option String
  updatedBy : Option String
  target : RecipeTarget
  lifecycle : RecipeLifecycle
  metrics : RecipeMetrics
  provenance : List ProvenanceRecord

/-- `Map.set` on a `FieldId`-keyed JavaScript `Map`: overwrite in place if
the key exists, otherwise append. -/
def jsMapSet (m : List (FieldId × JsValue)) (key : FieldId) (value : JsValue) :
    List (FieldId × JsValue) :=
  if m.any (fun p => p.1 == key) then
    m.map (fun p => if p.1 == key then (key, value) else p)
  else m ++ [(key, value)]

/-- `Map.get`: `some` of the stored value, `none` when the key is absent
(JavaScript `undefined`). -/
def jsMapGet (m : List (FieldId × JsValue)) (key : FieldId) : Option JsValue :=
  (m.find? (fun p => p.1 == key)).map (fun p => p.2)

/-- The extraction loop shared by the validator and `executeRecipe`: for
every field of the recipe, store the extracted value under its field id.
`extract` abstracts `extractFieldValue` (cheerio selector execution,
transform pipeline and field-specific post-processing); it is a pure
function of the field recipe because the parsed document is fixed. -/
def buildExtractedValues (extract : FieldRecipe → JsValue) (fields : List FieldRecipe) :
    List (FieldId × JsValue) :=
  fields.foldl (fun m field => jsMapSet m field.fieldId (extract field)) []

/-- `REQUIRED_FIELDS` from `validation.ts`. -/
def requiredFields : List FieldId :=
  [.title, .canonicalUrl, .price, .images]

/-- The missing-required test of `validateRecipeAgainstDocument`: an array
is missing when empty, otherwise a value is missing when it is `undefined`
(including an absent map entry), `null`, or the empty string. -/
def isMissingRequired (value : Option JsValue) : Bool :=
  match value with
  | some (.arr xs) => xs.isEmpty
  | some .undefined => true
  | some .nullv => true
  | some (.str s) => s == ""
  | some _ => false
  | none => true

/-- The per-field `missing` test inside the short-circuit branch of
`validateRecipeAgainstDocument` (`undefined`, `null` or empty string;
note: not the empty array). -/
def isMissingFieldResult (value : JsValue) : Bool :=
  match value with
  | .undefined => true
  | .nullv => true
  | .str s => s == ""
  | _ => false

/-- `FieldValidationResult` from the agents type definitions. -/
structure FieldValidationResult where
  fieldId : FieldId
  status : CompareStatus
  confidence : ℚ
  expected : JsValue
  actual : JsValue
  notes : List String
  errors : List String

/-- `DocumentValidationResult` from the agents type definitions. -/
structure DocumentValidationResult where
  status : CompareStatus
  confidence : ℚ
  fieldResults : List FieldValidationResult
  errors : List String
  stopReason : Option String

/-- The `productInput` object assembled by `validateRecipeAgainstDocument`
and `executeRecipe` before schema parsing: one dynamic value per product
key, `undefined` when never assigned (`id` is never assigned by either
function). -/
structure ProductInput where
  id : JsValue := .undefined
  title : JsValue := .undefined
  canonicalUrl : JsValue := .undefined
  description : JsValue := .undefined
  price : JsValue := .undefined
  images : JsValue := .undefined
  thumbnail : JsValue := .undefined
  aggregateRating : JsValue := .undefined
  breadcrumbs : JsValue := .undefined
  brand : JsValue := .undefined
  sku : JsValue := .undefined

/-- The optional field list shared by the validator and `executeRecipe`. -/
def optionalFields : List FieldId :=
  [.description, .thumbnail, .aggregateRating, .breadcrumbs, .brand, .sku]

/-- Reading an extracted value the way the validator's `productInput`
assembly does: an absent entry is `undefined`, and an optional field whose
stored value is `undefined` is skipped (which leaves the key `undefined`). -/
def extractedOrUndef (m : List (FieldId × JsValue)) (key : FieldId) : JsValue :=
  (jsMapGet m key).getD .undefined

/-- The `productInput` record literal of `validateRecipeAgainstDocument`:
the four required keys are copied unconditionally (`images` is copied via
`.slice()`, an identity on the value), then each optional field is
assigned when its extracted value is not `undefined`. -/
def validatorProductInput (extracted : List (FieldId × JsValue)) : ProductInput :=
  { title := extractedOrUndef extracted .title
    canonicalUrl := extractedOrUndef extracted .canonicalUrl
    price := extractedOrUndef extracted .price
    images := extractedOrUndef extracted .images
    description := extractedOrUndef extracted .description
    thumbnail := extractedOrUndef extracted .thumbnail
    aggregateRating := extractedOrUndef extracted .aggregateRating
    breadcrumbs := extractedOrUndef extracted .breadcrumbs
    brand := extractedOrUndef extracted .brand
    sku := extractedOrUndef extracted .sku }

/-- The list of required fields whose extraction came back missing
(`missingRequired` in `validateRecipeAgainstDocument`). -/
def missingRequiredOf (extract : FieldRecipe → JsValue) (recipe : Recipe) : List FieldId :=
  requiredFields.filter
    (fun fieldId => isMissingRequired (jsMapGet (buildExtractedValues extract recipe.target.fields) fieldId))

/-- The per-field comparison loop of `validateRecipeAgainstDocument`
(its schema-valid branch). -/
def validatorFieldResults (ops : UrlOps) (recipe : Recipe)
    (expected actualProduct : Product) : List FieldValidationResult :=
  recipe.target.fields.map (fun field =>
    let expectedValue := productFieldValue field.fieldId expected
    let actualValue := productFieldValue field.fieldId actualProduct
    let comparison := compareWithTolerance ops field.fieldId expectedValue actualValue field.tolerance
    { fieldId := field.fieldId
      status := comparison.status
      confidence := comparison.confidence
      expected := expectedValue
      actual := actualValue
      notes := comparison.notes
      errors := comparison.errors
      : FieldValidationResult })

/-- The aggregation tail of `validateRecipeAgainstDocument`: mean-based
overall confidence (clamped), all-pass status, collected errors, and the
critical-field stop reason (title or price, first failing one found). -/
def validatorAggregate (fieldResults : List FieldValidationResult) : DocumentValidationResult :=
  let totalConfidence := (fieldResults.map (fun f => f.confidence)).sum
  let confidence := clampConfidence (totalConfidence / (max fieldResults.length 1 : ℕ))
  let errors := (fieldResults.map (fun f => f.errors)).flatten
  let criticalFailure := fieldResults.find?
    (fun f => f.status == CompareStatus.fail &&
      (f.fieldId == FieldId.title || f.fieldId == FieldId.price))
  let status := if fieldResults.all (fun f => f.status == CompareStatus.pass) then
      CompareStatus.pass
    else CompareStatus.fail
  let stopReason := if status == CompareStatus.fail then
      criticalFailure.map (fun c => "Critical field " ++ c.fieldId.name ++ " failed validation")
    else none
  { status := status
    confidence := confidence
    fieldResults := fieldResults
    errors := errors
    stopReason := stopReason }

/-- `validateRecipeAgainstDocument` from `validation.ts`.

`extract` abstracts `extractFieldValue` over the parsed document (see
`buildExtractedValues`); `parseProduct` abstracts `ProductSchema.parse`
(`.error` carries the zod issue messages); `ops` abstracts the WHATWG URL
parser used by the URL comparators.  Everything else — the
missing-required short circuit, the schema-failure result, the per-field
tolerance comparison and the aggregation — is translated directly. -/
def validateRecipeAgainstDocument (ops : UrlOps)
    (parseProduct : ProductInput → Except (List String) Product)
    (extract : FieldRecipe → JsValue) (recipe : Recipe) (expected : Product) :
    DocumentValidationResult :=
  let extractedValues := buildExtractedValues extract recipe.target.fields
  let missingRequired := missingRequiredOf extract recipe
  if missingRequired.length > 0 then
    let fieldResults := recipe.target.fields.map (fun field =>
      let expectedValue := productFieldValue field.fieldId expected
      let actualValue := extractedOrUndef extractedValues field.fieldId
      let missing := isMissingFieldResult actualValue
      { fieldId := field.fieldId
        status := if missing then CompareStatus.fail else CompareStatus.pass
        confidence := if missing then 0 else 1/2
        expected := expectedValue
        actual := actualValue
        notes := []
        errors := if missing then ["No value extracted for field " ++ field.fieldId.name] else []
        : FieldValidationResult })
    let message := "Missing required fields: " ++
      String.intercalate ", " (missingRequired.map FieldId.name)
    { status := .fail
      confidence := 0
      fieldResults := fieldResults
      errors := [message]
      stopReason := some message }
  else
    match parseProduct (validatorProductInput extractedValues) with
    | .error issues =>
      { status := .fail
        confidence := 0
        fieldResults := []
        errors := issues
        stopReason := some "Schema validation failed" }
    | .ok actualProduct =>
      validatorAggregate (validatorFieldResults ops recipe expected actualProduct)

/-- `assignProductValue` from `execute.ts`: skip `undefined` values (the
key mapping is total, so the `!key` early return never fires); an `images`
array is filtered down to its string entries; every other field stores the
value under its product key unchanged (the `price` object cast does not
alter the value). -/
def assignProductValue (productInput : ProductInput) (fieldId : FieldId) (value : JsValue) :
    ProductInput :=
  if isUndefinedValue value then productInput
  else
    match fieldId with
    | .images =>
      match value with
      | .arr xs =>
        { productInput with images := .arr (xs.filter (fun v => match v with | .str _ => true | _ => false)) }
      | v => { productInput with images := v }
    | .id => { productInput with id := value }
    | .title => { productInput with title := value }
    | .canonicalUrl => { productInput with canonicalUrl := value }
    | .description => { productInput with description := value }
    | .price => { productInput with price := value }
    | .thumbnail => { productInput with thumbnail := value }
    | .aggregateRating => { productInput with aggregateRating := value }
    | .breadcrumbs => { productInput with breadcrumbs := value }
    | .brand => { productInput with brand := value }
    | .sku => { productInput with sku := value }

/-- The missing test of `executeRecipe`'s required loop: `undefined`
(including an absent entry), `null`, or an empty array.  Unlike the
validator's test, an empty string is not treated as missing here. -/
def isMissingExecute (value : Option JsValue) : Bool :=
  match value with
  | none => true
  | some .undefined => true
  | some .nullv => true
  | some (.arr xs) => xs.isEmpty
  | some _ => false

/-- The required-field loop of `executeRecipe`: check the fields in order
`title, canonicalUrl, price, images`, throwing at the first missing one,
otherwise assigning each into the product input. -/
def assignRequiredFields (values : List (FieldId × JsValue)) :
    ProductInput → List FieldId → Except String ProductInput
  | productInput, [] => .ok productInput
  | productInput, fieldId :: rest =>
    let value := jsMapGet values fieldId
    if isMissingExecute value then
      .error ("Missing required field \"" ++ fieldId.name ++ "\" when executing recipe.")
    else
      assignRequiredFields values (assignProductValue productInput fieldId (value.getD .undefined)) rest

/-- `RecipeExecutionResult` from `execute.ts`; the `fieldValues` map is
returned as its entry list. -/
structure RecipeExecutionResult where
  product : Product
  fieldValues : List (FieldId × JsValue)

/-- `executeRecipe` from `execute.ts`: the pure deterministic-replay path.

The signature mirrors the source's `(html, recipe)` interface: besides the
recipe, the computation reads only the parsed document (abstracted by
`extract`, a pure function of the field recipe) and the schema parser
(`parseProduct`, abstracting `ProductSchema.parse`, whose thrown `ZodError`
propagates as the error case).  No rule lookup, tool provider or budget
guard appears in the signature or the body — the function has nothing to
consult. -/
def executeRecipe (parseProduct : ProductInput → Except (List String) Product)
    (extract : FieldRecipe → JsValue) (recipe : Recipe) :
    Except String RecipeExecutionResult :=
  let values := buildExtractedValues extract recipe.target.fields
  match assignRequiredFields values {} requiredFields with
  | .error e => .error e
  | .ok requiredInput =>
    let productInput := optionalFields.foldl (fun input fieldId =>
      match jsMapGet values fieldId with
      | some value => if isUndefinedValue value then input else assignProductValue input fieldId value
      | none => input) requiredInput
    match parseProduct productInput with
    | .error issues => .error (String.intercalate "; " issues)
    | .ok product => .ok { product := product, fieldValues := values }

/-- `FileRecord` from `local-file-system.ts`: the persisted JSON document
for one recipe id (timestamps as epoch milliseconds). -/
structure FileRecord where
  id : String
  recipe : Recipe
  createdAt : ℤ
  updatedAt : ℤ
  promotedAt : Option ℤ := none

/-- `StoredRecipe` from the recipe-store types. -/
structure StoredRecipe where
  id : String
  recipe : Recipe
  createdAt : ℤ
  updatedAt : ℤ
  promotedAt : Option ℤ

/-- The backing directory of `LocalFileSystemRecipeStore`: one record per
id (`${id}.json`). -/
abbrev RecipeStoreState : Type :=
  List (String × FileRecord)

/-- `readRecord` resolved to the directory state: the record stored under
`${id}.json`, if any. -/
def storeGet (store : RecipeStoreState) (id : String) : Option FileRecord :=
  (store.find? (fun p => p.1 == id)).map (fun p => p.2)

/-- `writeRecord`: create or overwrite `${record.id}.json`. -/
def storeSet (store : RecipeStoreState) (record : FileRecord) : RecipeStoreState :=
  if store.any (fun p => p.1 == record.id) then
    store.map (fun p => if p.1 == record.id then (record.id, record) else p)
  else store ++ [(record.id, record)]

/-- `normalizeHistory` from `local-file-system.ts` re-wraps every event
timestamp in `new Date(...)`; on the integer time model this is the
identity map over the history. -/
def normalizeHistory (history : List LifecycleEvent) : List LifecycleEvent :=
  history.map (fun event => { event with «at» := event.«at» })

/-- `PromotionOptions` from the recipe-store types. -/
structure PromotionOptions where
  actor : Option String := none
  notes : Option String := none
  whenAt : Option ℤ := none

/-- `hydrate` from `local-file-system.ts`: re-parse and re-wrap the stored
record into a caller-facing snapshot (`RecipeSchema.parse` and the `Date`
re-wrapping are identities on the typed model). -/
def hydrate (record : FileRecord) : StoredRecipe :=
  { id := record.id
    recipe := { record.recipe with
      lifecycle := { record.recipe.lifecycle with
        history := normalizeHistory record.recipe.lifecycle.history } }
    createdAt := record.createdAt
    updatedAt := record.updatedAt
    promotedAt := record.promotedAt }

/-- `LocalFileSystemRecipeStore.promote`.

`nowTime` models `this.now()`; `RecipeSchema.parse` on the updated recipe
is the identity on the typed model.  The returned pair is the updated
directory state (after `writeRecord`) together with the hydrated snapshot. -/
def promote (store : RecipeStoreState) (nowTime : ℤ) (id : String) (options : PromotionOptions) :
    Except String (RecipeStoreState × StoredRecipe) :=
  match storeGet store id with
  | none => .error ("Recipe " ++ id ++ " not found.")
  | some record =>
    if record.recipe.lifecycle.state = .stable then
      .error "Recipe is already stable."
    else if record.recipe.lifecycle.state ≠ .draft then
      .error "Only draft recipes can be promoted."
    else
      let now := options.whenAt.getD nowTime
      let history := normalizeHistory record.recipe.lifecycle.history
      let promotedHistory := history ++
        [{ state := .stable, «at» := now, actor := options.actor
           notes := some (options.notes.getD "Promoted to stable") }]
      let updatedRecipe := { record.recipe with
        updatedAt := now
        updatedBy := match options.actor with
          | some actor => some actor
          | none => record.recipe.updatedBy
        lifecycle := { state := .stable, since := now, history := promotedHistory } }
      let next : FileRecord := { record with
        recipe := updatedRecipe
        updatedAt := now
        promotedAt := some now }
      .ok (storeSet store next, hydrate next)

/-- `AgentBudget` from the agents type definitions. -/
structure AgentBudget where
  maxPasses : ℤ
  maxToolInvocations : ℤ
  maxDurationMs : ℤ
  startedAt : ℤ
deriving DecidableEq, Repr

/-- The `Partial<AgentBudget>` override accepted by the orchestration
options. -/
structure BudgetOverride where
  maxPasses : Option ℤ := none
  maxToolInvocations : Option ℤ := none
  maxDurationMs : Option ℤ := none
deriving DecidableEq, Repr

/-- `createBudget` from `index.ts` (orchestrator): defaults 3 passes, 48
tool invocations, 5000 ms. -/
def createBudget (start : ℤ) (override : BudgetOverride) : AgentBudget :=
  { maxPasses := override.maxPasses.getD 3
    maxToolInvocations := override.maxToolInvocations.getD 48
    maxDurationMs := override.maxDurationMs.getD 5000
    startedAt := start }

/-- The mutable counters closed over by `createBudgetGuard`. -/
structure GuardState where
  executedPasses : ℤ := 0
  totalToolInvocations : ℤ := 0
deriving DecidableEq, Repr

/-- `ensureDurationWithinLimit` from the budget guard. -/
def ensureDurationWithinLimit (budget : AgentBudget) (start timestamp : ℤ) (passId : String) :
    Except String Unit :=
  let elapsed := timestamp - start
  if budget.maxDurationMs < elapsed then
    .error ("Agent orchestration budget exceeded: elapsed time " ++ toString elapsed ++
      "ms exceeded limit of " ++ toString budget.maxDurationMs ++ "ms before " ++ passId ++ ".")
  else .ok ()

/-- `ensureToolUsageWithinLimit` from the budget guard. -/
def ensureToolUsageWithinLimit (budget : AgentBudget) (guard : GuardState) (passId : String) :
    Except String Unit :=
  if budget.maxToolInvocations < guard.totalToolInvocations then
    .error ("Agent orchestration budget exceeded: tool invocations " ++
      toString guard.totalToolInvocations ++ " exceeded limit of " ++
      toString budget.maxToolInvocations ++ " during " ++ passId ++ ".")
  else .ok ()

/-- `beforePass` from the budget guard: reject when the pass limit is
already reached, then take a timestamp and check the duration and tool
limits.  Returns the timestamp taken. -/
def beforePass (budget : AgentBudget) (guard : GuardState) (start timestamp : ℤ) (passId : String) :
    Except String ℤ :=
  if budget.maxPasses ≤ guard.executedPasses then
    .error ("Agent orchestration budget exceeded: pass limit of " ++ toString budget.maxPasses ++
      " reached before " ++ passId ++ ".")
  else
    match ensureDurationWithinLimit budget start timestamp passId with
    | .error e => .error e
    | .ok _ =>
      match ensureToolUsageWithinLimit budget guard passId with
      | .error e => .error e
      | .ok _ => .ok timestamp

/-- `afterPass` from the budget guard: bump the counters and re-check all
three limits. -/
def afterPass (budget : AgentBudget) (guard : GuardState) (start : ℤ) (passId : String)
    (completedAt : ℤ) (passToolInvocations : ℕ) : Except String GuardState :=
  let next : GuardState :=
    { executedPasses := guard.executedPasses + 1
      totalToolInvocations := guard.totalToolInvocations + passToolInvocations }
  if budget.maxPasses < next.executedPasses then
    .error ("Agent orchestration budget exceeded: pass limit of " ++ toString budget.maxPasses ++
      " was exceeded during " ++ passId ++ ".")
  else
    match ensureToolUsageWithinLimit budget next passId with
    | .error e => .error e
    | .ok _ =>
      match ensureDurationWithinLimit budget start completedAt passId with
      | .error e => .error e
      | .ok _ => .ok next

/-- Origin tag (`'rule-set' | 'agent'`). -/
inductive Origin where
  | ruleSet
  | agent
deriving DecidableEq, Repr

/-- `ExpectedDataSummary` (the fields the orchestration slice reads). -/
structure ExpectedDataSummary where
  fixtureId : String
  product : Product
  origin : Origin

/-- `RecipeSynthesisSummary` (the fields the orchestration slice reads;
`iterationCount` is the length of the agent iteration log). -/
structure RecipeSynthesisSummary where
  recipe : Recipe
  origin : Origin
  iterationCount : ℕ

/-- Pass status (`'success' | 'failure'`). -/
inductive PassStatus where
  | success
  | failure
deriving DecidableEq, Repr

/-- `PassSummary` (tool usage kept as the number of logged invocations). -/
structure PassSummary (α : Type) where
  id : String
  label : String
  status : PassStatus
  startedAt : ℤ
  completedAt : ℤ
  notes : List String
  toolUsage : ℕ
  result : α

/-- `OrchestrationResult`. -/
structure OrchestrationResult where
  startedAt : ℤ
  completedAt : ℤ
  budget : AgentBudget
  expected : ExpectedDataSummary
  synthesis : RecipeSynthesisSummary
  validation : DocumentValidationResult
  pass1 : PassSummary ExpectedDataSummary
  pass2 : PassSummary RecipeSynthesisSummary
  pass3 : PassSummary DocumentValidationResult

/-- The outputs of the rule-set path (`collectExpectedData` and
`buildRecipeFromRuleSet` applied to the matched rule configuration),
supplied as resolved values. -/
structure RuleSetOutputs where
  expected : ExpectedDataSummary
  synthesis : RecipeSynthesisSummary

/-- All environment inputs of `runAgentOrchestrationSlice`:
`clock n` is the value of the `n`-th `now().getTime()` call; `ruleSet` is
the (optional) result of `ruleRepository.getRuleSet`; `agentArtifacts` is
the memoised result of `synthesizeRecipeWithAgent` (used only on the
heuristic path); `toolUsage k` is the number of toolset invocations logged
during pass `k`; `ops`, `parseProduct` and `extract` are the validation
pass's dependencies (see `validateRecipeAgainstDocument`). -/
structure OrchestrationInputs where
  clock : ℕ → ℤ
  budgetOverride : BudgetOverride
  ruleSet : Option RuleSetOutputs
  agentArtifacts : ExpectedDataSummary × RecipeSynthesisSummary
  toolUsage : ℕ → ℕ
  ops : UrlOps
  parseProduct : ProductInput → Except (List String) Product
  extract : FieldRecipe → JsValue

/-- `runAgentOrchestrationSlice` from the orchestrator `index.ts`.

Returns the orchestration outcome together with the list of pass ids whose
runner actually executed (a runner executes exactly when its `beforePass`
check succeeded).  The budget is created from the first clock reading;
when `budget.maxPasses < 3` the slice throws before looking up the rule
set and before any pass runs. -/
def runAgentOrchestrationSlice (inputs : OrchestrationInputs) :
    Except String OrchestrationResult × List String :=
  let start := inputs.clock 0
  let budget := createBudget start inputs.budgetOverride
  if budget.maxPasses < 3 then
    (.error "Agent orchestration slice requires at least three passes.", [])
  else
    let guard0 : GuardState := {}
    -- pass 1: collect expected data
    match beforePass budget guard0 start (inputs.clock 1) "pass-1-expected-data" with
    | .error e => (.error e, [])
    | .ok started1 =>
      let result1 := match inputs.ruleSet with
        | some ruleSet => ruleSet.expected
        | none => inputs.agentArtifacts.1
      let completed1 := inputs.clock 2
      let usage1 := inputs.toolUsage 0
      let log1 := ["pass-1-expected-data"]
      match afterPass budget guard0 start "pass-1-expected-data" completed1 usage1 with
      | .error e => (.error e, log1)
      | .ok guard1 =>
        let summary1 : PassSummary ExpectedDataSummary :=
          { id := "pass-1-expected-data"
            label := match inputs.ruleSet with
              | some _ => "Collect stored expectations"
              | none => "Seed expected data via agent workflow"
            status := .success
            startedAt := started1
            completedAt := completed1
            notes := if result1.origin = .agent then
                ["Initialized target data using iterative agent loop"]
              else []
            toolUsage := usage1
            result := result1 }
        -- pass 2: recipe synthesis
        match beforePass budget guard1 start (inputs.clock 3) "pass-2-recipe-synthesis" with
        | .error e => (.error e, log1)
        | .ok started2 =>
          let result2 := match inputs.ruleSet with
            | some ruleSet => ruleSet.synthesis
            | none => inputs.agentArtifacts.2
          let completed2 := inputs.clock 4
          let usage2 := inputs.toolUsage 1
          let log2 := log1 ++ ["pass-2-recipe-synthesis"]
          match afterPass budget guard1 start "pass-2-recipe-synthesis" completed2 usage2 with
          | .error e => (.error e, log2)
          | .ok guard2 =>
            let summary2 : PassSummary RecipeSynthesisSummary :=
              { id := "pass-2-recipe-synthesis"
                label := "Synthesize candidate recipe"
                status := .success
                startedAt := started2
                completedAt := completed2
                notes := if result2.origin = .agent then
                    ["Completed " ++ toString result2.iterationCount ++ " agent iterations",
                      "Selectors refined directly against fetched document"]
                  else ["Sourced field selectors from configurable rules"]
                toolUsage := usage2
                result := result2 }
            -- pass 3: validation
            match beforePass budget guard2 start (inputs.clock 5) "pass-3-validation" with
            | .error e => (.error e, log2)
            | .ok started3 =>
              let result3 := validateRecipeAgainstDocument inputs.ops inputs.parseProduct
                inputs.extract result2.recipe result1.product
              let completed3 := inputs.clock 6
              let usage3 := inputs.toolUsage 2
              let log3 := log2 ++ ["pass-3-validation"]
              match afterPass budget guard2 start "pass-3-validation" completed3 usage3 with
              | .error e => (.error e, log3)
              | .ok _ =>
                let summary3 : PassSummary DocumentValidationResult :=
                  { id := "pass-3-validation"
                    label := "Validate candidate recipe"
                    status := if result3.status = .fail then .failure else .success
                    startedAt := started3
                    completedAt := completed3
                    notes := match result3.stopReason with
                      | some stopReason => [stopReason]
                      | none => ["Document confidence " ++ qToFixed (result3.confidence * 100) 1 ++ "%"]
                    toolUsage := usage3
                    result := result3 }
                let completedAt := inputs.clock 7
                (.ok { startedAt := start
                       completedAt := completedAt
                       budget := budget
                       expected := result1
                       synthesis := result2
                       validation := result3
                       pass1 := summary1
                       pass2 := summary2
                       pass3 := summary3 }, log3)

/-- `collapseWhitespace` from `dynamic-rule-generator.ts`: collapse
whitespace runs and trim. -/
def collapseWhitespaceAgent (value : String) : String :=
  jsTrim (jsCollapseWs value)

/-- `attributePriorities` from `dynamic-rule-generator.ts`. -/
def attributePriorities : List String :=
  ["data-test", "data-testid", "data-qa", "data-role", "itemprop", "itemtype", "itemid",
    "data-component", "data-field", "aria-label", "rel", "name", "property"]

/-- `attributeSelectorAttributes` from `dynamic-rule-generator.ts`. -/
def attributeSelectorAttributes : List String :=
  ["data-test", "data-testid", "data-qa", "data-role", "aria-label", "id", "class", "name",
    "itemprop", "property"]

/-- Attribute lookup on an element's attribute record (`attribs[name]`). -/
def attrLookup (attrs : List (String × String)) (name : String) : Option String :=
  (attrs.find? (fun p => p.1 == name)).map (fun p => p.2)

/-- JavaScript truthiness of `attribs[name]` (present and non-empty). -/
def attrTruthy (attrs : List (String × String)) (name : String) : Bool :=
  match attrLookup attrs name with
  | some value => value != ""
  | none => false

/-- One ancestor-chain entry of a DOM element: its tag name, attribute
record, and its position among the same-tag children of its parent
(`sameTagSiblingCount` of them in total, this node being number
`sameTagOrdinal`, 1-based; both 0 when the node has no tag parent). -/
structure PathSeg where
  name : String
  attrs : List (String × String)
  sameTagSiblingCount : ℕ := 0
  sameTagOrdinal : ℕ := 0

/-- A tag element of the parsed document as `selectElement` and
`buildCssPath` see it: the element itself, its chain of tag ancestors
(nearest first, precomputed from the DOM tree), and its rendered text
(`selection.text()`). -/
structure DomElement where
  seg : PathSeg
  ancestors : List PathSeg
  text : String

/-- The `firstClass` computation of `buildCssPath`: first non-empty token
of the `class` attribute. -/
def firstClassOf (classValue : String) : Option String :=
  (((strSplit classValue (fun c => c.isWhitespace)).map jsTrim).filter (fun t => t ≠ "")).head?

/-- The per-level segments of `buildCssPath`, from the element upward: a
prioritized data/semantic attribute anchors the path and stops the walk;
otherwise an `id` stops it; otherwise the tag with its first class and, if
the parent has several same-tag children, an `:nth-of-type(n)`
disambiguator, continuing with the parent. -/
def cssSegments : List PathSeg → List String
  | [] => []
  | seg :: rest =>
    if seg.name = "" then []
    else
      match attributePriorities.find? (fun a => attrTruthy seg.attrs a) with
      | some prioritized =>
        [seg.name ++ "[" ++ prioritized ++ "=\"" ++ ((attrLookup seg.attrs prioritized).getD "") ++ "\"]"]
      | none =>
        if attrTruthy seg.attrs "id" then
          [seg.name ++ "#" ++ ((attrLookup seg.attrs "id").getD "")]
        else
          let withClass :=
            if attrTruthy seg.attrs "class" then
              match firstClassOf ((attrLookup seg.attrs "class").getD "") with
              | some c => seg.name ++ "." ++ c
              | none => seg.name
            else seg.name
          let segment := match rest with
            | [] => withClass
            | _ :: _ =>
              if 1 < seg.sameTagSiblingCount ∧ 0 < seg.sameTagOrdinal then
                withClass ++ ":nth-of-type(" ++ toString seg.sameTagOrdinal ++ ")"
              else withClass
          segment :: cssSegments rest

/-- `buildCssPath` from `dynamic-rule-generator.ts`: ancestor segments
joined with `>` from the document root downward. -/
def buildCssPath (element : DomElement) : String :=
  String.intercalate " > " (cssSegments (element.seg :: element.ancestors)).reverse

/-- Insertion-ordered deduplication (a JavaScript `Set` filled and read in
order). -/
def dedupKeepFirst (l : List String) : List String :=
  l.foldl (fun acc s => if acc.contains s then acc else acc ++ [s]) []

/-- `createAttributeSelectors` from `dynamic-rule-generator.ts`: substring
(`*=`) and exact attribute selectors for the normalized keyword over the
prioritized attribute list, each optionally prefixed with the preferred
tags (an empty tag list behaves like the absent argument). -/
def createAttributeSelectors (keyword : String) (tags : List String) : List String :=
  let normalized := jsToLower (jsTrim keyword)
  if normalized = "" then []
  else
    let wrap := fun (selector : String) => (tags.map (fun tag => tag ++ selector)) ++ [selector]
    dedupKeepFirst (attributeSelectorAttributes.flatMap (fun attr =>
      wrap ("[" ++ attr ++ "*=\"" ++ normalized ++ "\"]") ++
        wrap ("[" ++ attr ++ "=\"" ++ normalized ++ "\"]")))

/-- `uniqueSelectors` from `dynamic-rule-generator.ts`: trim, drop empties
and duplicates, keep first occurrences in order. -/
def uniqueSelectors (selectors : List String) : List String :=
  selectors.foldl (fun acc s =>
    let trimmed := jsTrim s
    if trimmed = "" ∨ acc.contains trimmed then acc else acc ++ [trimmed]) []

/-- `HtmlQueryMatch` from the agent toolset. -/
structure HtmlQueryMatch where
  html : String
  text : String
  attributes : List (String × String)
  attributeValue : Option String
  path : String

/-- `HtmlQueryResult` from the agent toolset (the fields `deriveSelector`
reads). -/
structure HtmlQueryResult where
  totalMatches : ℕ
  «matches» : List HtmlQueryMatch

/-- `findMatchingSelector` from `dynamic-rule-generator.ts`: try the
selectors in order against the toolset query (`.error` models a selector
cheerio cannot parse, which the `try`/`catch` ignores); accept the first
whose non-empty match list satisfies the predicate. -/
def findMatchingSelector (query : String → Except String HtmlQueryResult)
    (predicate : List HtmlQueryMatch → Bool) : List String → Option (String × HtmlQueryResult)
  | [] => none
  | selector :: rest =>
    match query selector with
    | .error _ => findMatchingSelector query predicate rest
    | .ok result =>
      if result.matches.isEmpty then findMatchingSelector query predicate rest
      else if predicate result.matches then some (selector, result)
      else findMatchingSelector query predicate rest

/-- `toSearchTokens` from `dynamic-rule-generator.ts`: lowercase the
collapsed text, split on non-alphanumeric runs, keep tokens longer than
two characters. -/
def toSearchTokens (value : String) : List String :=
  (strSplit (jsToLower (collapseWhitespaceAgent value))
      (fun c => ¬ (('a' ≤ c ∧ c ≤ 'z') ∨ ('0' ≤ c ∧ c ≤ '9')))).filter
    (fun token => 2 < token.length)

/-- `ElementSelectionOptions` from `dynamic-rule-generator.ts`; the
`textPattern` regular expression is abstracted as a string predicate
(`normalizeRegex` only strips the stateful `g` flag, which a pure
predicate cannot observe). -/
structure ElementSelectionOptions where
  seeds : List String := []
  attributeHints : List String := []
  preferTags : List String := []
  allowedTags : Option (List String) := none
  textPattern : Option (String → Bool) := none
  allowPartialMatches : Bool := false

/-- The per-element scoring of `selectElement`; `none` models the loop's
`continue`. -/
def scoreElement (options : ElementSelectionOptions) (element : DomElement) : Option ℚ :=
  let tokens := options.seeds.flatMap toSearchTokens
  let attributeHints := options.attributeHints.map jsToLower
  let preferTags := options.preferTags.map jsToLower
  let tagName := jsToLower element.seg.name
  let allowedSkip : Bool := match options.allowedTags with
    | some allowed => ! (allowed.map jsToLower).contains tagName
    | none => false
  if element.seg.name = "" then none
  else if allowedSkip then none
  else
    let text := collapseWhitespaceAgent element.text
    let normalizedText := jsToLower text
    let patternSkip : Bool := match options.textPattern with
      | some pattern => ! pattern text
      | none => false
    if patternSkip then none
    else
      let matched := tokens.filter (fun token => strIncludes normalizedText token)
      if tokens ≠ [] ∧ ¬ options.allowPartialMatches ∧ matched.length ≠ tokens.length then none
      else if tokens ≠ [] ∧ matched = [] then none
      else
        let matchedTokenCount := matched.length
        let tokenScore : ℚ :=
          if tokens ≠ [] then
            ((matched.map (fun token => min token.length 8)).sum : ℕ) -
              (min ((Int.ofNat normalizedText.length -
                Int.ofNat (String.intercalate " " tokens).length).natAbs) 60 : ℕ) * (5 / 100)
          else 0
        let hintScore : ℚ := (attributeHints.map (fun hint =>
          (element.seg.attrs.map (fun p =>
            (if strIncludes (jsToLower p.1) hint then (3 : ℚ) else 0) +
              (if strIncludes (jsToLower p.2) hint then (4 : ℚ) else 0))).sum)).sum
        let tagScore : ℚ := if preferTags.contains tagName then 3 else 0
        let stableScore : ℚ :=
          (if attrTruthy element.seg.attrs "data-test" then (2 : ℚ) else 0) +
            (if attrTruthy element.seg.attrs "id" then (2 : ℚ) else 0)
        let score := tokenScore + hintScore + tagScore + stableScore
        if score ≤ 0 then
          if 0 < matchedTokenCount then some (score + 2 * matchedTokenCount) else none
        else some score

/-- `selectElement` from `dynamic-rule-generator.ts`: walk every element,
score it, and keep the best-scoring one (strict improvement only, so ties
are broken by first-encountered order). -/
def selectElement (elements : List DomElement) (options : ElementSelectionOptions) :
    Option DomElement :=
  (elements.foldl (fun best element =>
    match scoreElement options element with
    | none => best
    | some score =>
      match best with
      | none => some (element, score)
      | some (_, bestScore) => if bestScore < score then some (element, score) else best) none).map
    (fun p => p.1)

/-- `SelectorDerivationOptions` from `dynamic-rule-generator.ts`.  The
query `limit` and `attribute` options are baked into the abstract `query`
function each derivation receives; `textPattern` is a predicate as in
`ElementSelectionOptions`. -/
structure SelectorDerivationOptions where
  field : FieldId
  keywords : List String := []
  fallbackText : List String := []
  preferTags : List String := []
  allowedTags : Option (List String) := none
  additionalSelectors : List String := []
  directSelectors : List String := []
  textPattern : Option (String → Bool) := none
  allowPartialMatches : Bool := false
  selectorLimit : Option ℕ := none
  predicate : List HtmlQueryMatch → Bool

/-- The candidate selector list `deriveSelector` actually queries: direct
selectors, then per keyword the tag-prefixed and bare attribute selectors,
with the additional selectors unshifted to the front, deduplicated and cut
to `selectorLimit` (default 8). -/
def limitedSelectors (options : SelectorDerivationOptions) : List String :=
  let selectors := options.directSelectors ++ options.keywords.flatMap (fun keyword =>
    createAttributeSelectors keyword options.preferTags ++ createAttributeSelectors keyword [])
  let selectors := options.additionalSelectors ++ selectors
  (uniqueSelectors selectors).take (options.selectorLimit.getD 8)

/-- The error thrown when both discovery strategies fail for a field. -/
def deriveSelectorFailure (field : FieldId) : String :=
  "Agent workflow failed to derive a selector for " ++ field.name ++ "."

/-- The full-tree scored scan `deriveSelector` falls back to: the seeds
are the non-empty fallback texts, the attribute hints the keyword list. -/
def fallbackSelection (elements : List DomElement) (options : SelectorDerivationOptions) :
    Option DomElement :=
  selectElement elements
    { seeds := options.fallbackText.filter (fun s => s ≠ "")
      attributeHints := options.keywords
      preferTags := options.preferTags
      allowedTags := options.allowedTags
      textPattern := options.textPattern
      allowPartialMatches := options.allowPartialMatches }

/-- `deriveSelector` from `dynamic-rule-generator.ts`: try the attribute-
keyword candidate selectors first; when none satisfies the predicate, fall
back to the full-tree scored scan (`selectElement`), build a CSS path for
the winning element and accept it only if its own query satisfies the
predicate; otherwise throw a hard error naming the field. -/
def deriveSelector (elements : List DomElement)
    (query : String → Except String HtmlQueryResult) (options : SelectorDerivationOptions) :
    Except String (String × HtmlQueryResult) :=
  match findMatchingSelector query options.predicate (limitedSelectors options) with
  | some candidate => .ok candidate
  | none =>
    if options.fallbackText.filter (fun s => s ≠ "") ≠ [] ∨ options.keywords ≠ [] then
      match fallbackSelection elements options with
      | some element =>
        let selector := buildCssPath element
        match query selector with
        | .error e => .error e
        | .ok result =>
          if ¬ result.matches.isEmpty ∧ options.predicate result.matches then
            .ok (selector, result)
          else .error (deriveSelectorFailure options.field)
      | none => .error (deriveSelectorFailure options.field)
    else .error (deriveSelectorFailure options.field)

/-- The claim's notion of a matching candidate for the expected crumb at
`index`: the positional entry at the same index matches, or — when
reordering is allowed — an exact `(label, url)` match exists anywhere. -/
def crumbHasCandidate (actual : List Breadcrumb) (tolerance : BreadcrumbTolerance)
    (index : ℕ) (crumb : Breadcrumb) : Bool :=
  if tolerance.allowReordering then actual.any (fun entry => crumbMatches entry crumb)
  else
    match actual.get? index with
    | some entry => crumbMatches entry crumb
    | none => false

/-- The claim's count of expected crumbs without a matching candidate. -/
def unmatchedCrumbCount (actual : List Breadcrumb) (tolerance : BreadcrumbTolerance) :
    List Breadcrumb → ℕ → ℕ
  | [], _ => 0
  | crumb :: rest, index =>
    (if crumbHasCandidate actual tolerance index crumb then 0 else 1) +
      unmatchedCrumbCount actual tolerance rest (index + 1)

/-- UnitedByTest: crumbs of the demo trail (the spec's 4-crumb example). -/
def demoCrumbs4 : List Breadcrumb :=
  [⟨"Home", some "https://demo.mercator.sh/", some 1⟩,
    ⟨"Coffee", some "https://demo.mercator.sh/coffee", some 2⟩,
    ⟨"Kettles", some "https://demo.mercator.sh/coffee/kettles", some 3⟩,
    ⟨"Precision Pour-Over Kettle", none, some 4⟩]

/-- The same trail with the last crumb absent. -/
def demoCrumbs3 : List Breadcrumb :=
  [⟨"Home", some "https://demo.mercator.sh/", some 1⟩,
    ⟨"Coffee", some "https://demo.mercator.sh/coffee", some 2⟩,
    ⟨"Kettles", some "https://demo.mercator.sh/coffee/kettles", some 3⟩]

/-- The demo kettle price. -/
def sampleMoney : Money :=
  ⟨149, "USD", 2, some "$149.00"⟩

/-- A concrete product used by the witnesses. -/
def sampleProduct : Product :=
  { id := none
    title := "Precision Pour-Over Kettle"
    canonicalUrl := "https://demo.mercator.sh/products/kettle"
    description := none
    price := sampleMoney
    images := ["https://demo.mercator.sh/kettle.jpg"]
    thumbnail := none
    aggregateRating := none
    breadcrumbs := none
    brand := none
    sku := none }

/-- A minimal field recipe used by the witnesses. -/
def sampleFieldRecipe (fieldId : FieldId) (selector : String) (tolerance : RecipeTolerance) :
    FieldRecipe :=
  { fieldId := fieldId
    description := none
    selectorSteps := [⟨.css, selector, none, none, false, none⟩]
    transforms := []
    tolerance := tolerance
    validators := []
    metrics := ⟨0, 0, 0⟩ }

/-- A concrete draft recipe covering the four required fields. -/
def sampleRecipe : Recipe :=
  { id := some "r1"
    name := "demo kettle recipe"
    version := "1.0.0"
    description := none
    createdAt := 0
    updatedAt := 0
    createdBy := none
    updatedBy := none
    target :=
      { schema := sampleProduct
        fields :=
          [sampleFieldRecipe .title "h1" (.text ⟨true, false, 0⟩),
            sampleFieldRecipe .canonicalUrl "link" (.url ⟨true, false⟩),
            sampleFieldRecipe .price "p.price" (.money ⟨1, 0⟩),
            sampleFieldRecipe .images "figure img" (.image ⟨true⟩)] }
    lifecycle := { state := .draft, since := 0, history := [⟨.draft, 0, none, none⟩] }
    metrics := ⟨0, 0⟩
    provenance := [] }

/-- The updated file record the draft branch of `promote` builds and
persists (the `updatedRecipe` / `next` let-chain of the source, named so
theorems can speak about it). -/
def promoteNext (record : FileRecord) (nowTime : ℤ) (options : PromotionOptions) : FileRecord :=
  let now := options.whenAt.getD nowTime
  let history := normalizeHistory record.recipe.lifecycle.history
  let promotedHistory := history ++
    [{ state := .stable, «at» := now, actor := options.actor,
       notes := some (options.notes.getD "Promoted to stable") }]
  let updatedRecipe := { record.recipe with
    updatedAt := now
    updatedBy := match options.actor with
      | some actor => some actor
      | none => record.recipe.updatedBy
    lifecycle := { state := .stable, since := now, history := promotedHistory } }
  { record with recipe := updatedRecipe, updatedAt := now, promotedAt := some now }

/-- A stored draft of the sample recipe. -/
def draftRecord : FileRecord :=
  { id := "r1", recipe := sampleRecipe, createdAt := 0, updatedAt := 0 }

/-- A stored recipe already promoted to `stable`. -/
def stableRecord : FileRecord :=
  { id := "r2"
    recipe := { sampleRecipe with
      id := some "r2"
      lifecycle :=
        { state := .stable
          since := 1
          history := [⟨.draft, 0, none, none⟩, ⟨.stable, 1, none, none⟩] } }
    createdAt := 0
    updatedAt := 1
    promotedAt := some 1 }

/-- A stored recipe in the (reserved) `retired` state. -/
def retiredRecord : FileRecord :=
  { id := "r3"
    recipe := { sampleRecipe with
      id := some "r3"
      lifecycle := { state := .retired, since := 2, history := [⟨.retired, 2, none, none⟩] } }
    createdAt := 0
    updatedAt := 2 }

/-- A demo store holding one draft, one stable and one retired record. -/
def demoStore : RecipeStoreState :=
  [("r1", draftRecord), ("r2", stableRecord), ("r3", retiredRecord)]

/-- Inputs with a two-pass budget for the C2 witness. -/
def twoPassInputs : OrchestrationInputs :=
  { clock := fun _ => 0
    budgetOverride := { maxPasses := some 2 }
    ruleSet := none
    agentArtifacts :=
      (⟨"demo", sampleProduct, .agent⟩, ⟨sampleRecipe, .agent, 3⟩)
    toolUsage := fun _ => 0
    ops := ⟨fun _ _ _ => none⟩
    parseProduct := fun _ => .ok sampleProduct
    extract := fun _ => .undefined }

/-- Extraction outcomes of the sample recipe on the demo document. -/
def demoExtract : FieldRecipe → JsValue := fun field =>
  match field.fieldId with
  | .title => .str "Precision Pour-Over Kettle"
  | .canonicalUrl => .str "https://demo.mercator.sh/products/kettle"
  | .price => .money sampleMoney
  | .images => .arr [.str "https://demo.mercator.sh/kettle.jpg"]
  | _ => .undefined

/-- A schema parser accepting the demo product (abstracting
`ProductSchema.parse` on valid input). -/
def demoParse : ProductInput → Except (List String) Product := fun _ => .ok sampleProduct

/-- The execution result of the sample recipe on the demo document. -/
def demoExecutionResult : RecipeExecutionResult :=
  { product := sampleProduct
    fieldValues :=
      [(.title, .str "Precision Pour-Over Kettle"),
        (.canonicalUrl, .str "https://demo.mercator.sh/products/kettle"),
        (.price, .money sampleMoney),
        (.images, .arr [.str "https://demo.mercator.sh/kettle.jpg"])] }

/-- Extraction with the price element removed. -/
def demoExtractNoPrice : FieldRecipe → JsValue := fun field =>
  match field.fieldId with
  | .title => .str "Precision Pour-Over Kettle"
  | .canonicalUrl => .str "https://demo.mercator.sh/products/kettle"
  | .images => .arr [.str "https://demo.mercator.sh/kettle.jpg"]
  | _ => .undefined

/-- A URL parser abstraction for the witnesses (every URL falls back to
trimmed-string comparison). -/
def demoOps : UrlOps :=
  ⟨fun _ _ _ => none⟩

/-- A candidate selector that the first discovery strategy rejects: its
query throws (cheerio parse error, ignored), matches nothing, or its
matches fail the acceptance predicate. -/
def candidateFails (predicate : List HtmlQueryMatch → Bool) :
    Except String HtmlQueryResult → Bool
  | .error _ => true
  | .ok result => result.matches.isEmpty || ! predicate result.matches

/-- A fallback scan that produces no accepted selector: either no element
wins the scored scan, or the built CSS path's own query returns matches
that are empty or fail the predicate. -/
def fallbackFails (elements : List DomElement) (query : String → Except String HtmlQueryResult)
    (options : SelectorDerivationOptions) : Bool :=
  match fallbackSelection elements options with
  | none => true
  | some element =>
    match query (buildCssPath element) with
    | .ok result => result.matches.isEmpty || ! options.predicate result.matches
    | .error _ => false

/-- The price-field derivation options (mirroring the `price` call site of
`synthesizeRecipeWithAgent`), with a currency-and-digit acceptance
predicate. -/
def demoSelectorOptions : SelectorDerivationOptions :=
  { field := .price
    keywords := ["price"]
    fallbackText := ["$149.00"]
    preferTags := []
    predicate := fun ms => ms.any (fun m => strIncludes m.text "$")
    selectorLimit := some 8 }

/-- A query tool that finds no matches for any selector. -/
def demoQuery : String → Except String HtmlQueryResult :=
  fun _ => .ok ⟨0, []⟩

theorem clampConfidence_nonneg (q : ℚ) : 0 ≤ clampConfidence q :=
  le_min (by norm_num) (le_max_left 0 q)

theorem clampConfidence_le_one (q : ℚ) : clampConfidence q ≤ 1 :=
  min_le_left 1 (max 0 q)

theorem clampConfidence_of_mem {q : ℚ} (h0 : 0 ≤ q) (h1 : q ≤ 1) : clampConfidence q = q := by
  unfold clampConfidence
  rw [max_eq_right h0, min_eq_right h1]

theorem levenshteinDistance_self (l : List Char) : levenshteinDistance l l = 0 := by
  induction l with
  | nil => simp [levenshteinDistance]
  | cons a as ih => simpa [levenshteinDistance] using ih

/-- Claim C8: comparing any string against itself with any text tolerance
whose `maxDistanceRatio` is non-negative yields status `pass` and
confidence exactly 1 (the normalized strings coincide, so the Levenshtein
ratio is 0). -/
theorem compareText_self_pass (x : String) (t : TextTolerance) (h : 0 ≤ t.maxDistanceRatio) :
    (compareText x x t).status = .pass ∧ (compareText x x t).confidence = 1 := by
  unfold compareText
  simp only [levenshteinDistance_self, Nat.cast_zero, zero_div]
  rw [if_pos h]
  refine ⟨rfl, ?_⟩
  show clampConfidence (1 - 0) = 1
  rw [sub_zero]
  exact clampConfidence_of_mem (by norm_num) (by norm_num)

/-- Witness for C8 at a concrete string and the default title tolerance. -/
theorem compareText_self_pass_witness :
    (compareText "Precision Pour-Over Kettle" "Precision Pour-Over Kettle"
        { trim := true, caseSensitive := false, maxDistanceRatio := 0 }).status = .pass ∧
      (compareText "Precision Pour-Over Kettle" "Precision Pour-Over Kettle"
        { trim := true, caseSensitive := false, maxDistanceRatio := 0 }).confidence = 1 :=
  compareText_self_pass _ _ (le_refl 0)

/-- Claim C1 as stated is false on the code: with tolerance
`{maxAbsoluteMinorUnits := 1, maxRelativeDifference := 0}` the comparison
of expected `$149.00` (precision 2) against actual `$149.01` returns
`fail`, not `pass` — the relative check `|149 - 149.01| / 149 ≤ 0` fails
even though the minor-unit delta of 1 is within the absolute bound
(`compareMoney` requires both checks to hold). -/
theorem compareMoney_boundary_counterexample :
    (compareMoney ⟨149, "USD", 2, some "$149.00"⟩ ⟨14901/100, "USD", 2, some "$149.01"⟩
        ⟨1, 0⟩).status = .fail := by
  simp only [compareMoney, toMinorUnits, jsRound]
  norm_num [abs]

/-- Claim C1 amended: under tolerance `{maxAbsoluteMinorUnits := 1,
maxRelativeDifference := 0}`, actual `149.01` fails (its minor-unit delta
is 1, within the absolute bound, but its relative delta is positive and
`maxRelativeDifference` is 0), and actual `149.02` fails as well. -/
theorem compareMoney_boundary_amended :
    (compareMoney ⟨149, "USD", 2, some "$149.00"⟩ ⟨14901/100, "USD", 2, some "$149.01"⟩
        ⟨1, 0⟩).status = .fail ∧
      (toMinorUnits (⟨149, "USD", 2, some "$149.00"⟩ : Money) -
          toMinorUnits (⟨14901/100, "USD", 2, some "$149.01"⟩ : Money)).natAbs = 1 ∧
      (compareMoney ⟨149, "USD", 2, some "$149.00"⟩ ⟨14902/100, "USD", 2, some "$149.02"⟩
        ⟨1, 0⟩).status = .fail := by
  refine ⟨?_, ?_, ?_⟩
  · simp only [compareMoney, toMinorUnits, jsRound]
    norm_num [abs]
  · simp only [toMinorUnits, jsRound]
    norm_num
  · simp only [compareMoney, toMinorUnits, jsRound]
    norm_num [abs]

theorem crumb_match_step (actual : List Breadcrumb) (tolerance : BreadcrumbTolerance)
    (index : ℕ) (crumb : Breadcrumb) :
    (match (if tolerance.allowReordering then
        actual.find? (fun entry => crumbMatches entry crumb)
      else actual.get? index) with
      | none => 0
      | some c => if crumbMatches c crumb then 1 else 0) =
      if crumbHasCandidate actual tolerance index crumb then 1 else 0 := by
  by_cases hr : tolerance.allowReordering
  · simp only [crumbHasCandidate, hr, if_true]
    cases hfind : actual.find? (fun entry => crumbMatches entry crumb) with
    | none =>
      have : ¬ actual.any (fun entry => crumbMatches entry crumb) = true := by
        rw [List.any_eq_true]
        rintro ⟨x, hx, hpx⟩
        exact absurd hfind (by simp [List.find?_eq_none] at hfind ⊢; exact ⟨x, hx, hpx⟩)
      simp [this]
    | some c =>
      have hpc := List.find?_some hfind
      have hmem := List.mem_of_find?_eq_some hfind
      have : actual.any (fun entry => crumbMatches entry crumb) = true :=
        List.any_eq_true.mpr ⟨c, hmem, hpc⟩
      simp [this, hpc]
  · simp only [crumbHasCandidate, hr, if_false]
    cases actual.get? index with
    | none => rfl
    | some entry => rfl

theorem breadcrumb_count_add (actual : List Breadcrumb) (tolerance : BreadcrumbTolerance) :
    ∀ (l : List Breadcrumb) (index : ℕ),
      breadcrumbMatchCount actual tolerance l index +
        unmatchedCrumbCount actual tolerance l index = l.length := by
  intro l
  induction l with
  | nil => intro index; rfl
  | cons crumb rest ih =>
    intro index
    have hstep := crumb_match_step actual tolerance index crumb
    have hrest := ih (index + 1)
    simp only [breadcrumbMatchCount, unmatchedCrumbCount, List.length_cons]
    rw [hstep]
    cases hc : crumbHasCandidate actual tolerance index crumb <;> simp [hc] <;> omega

/-- Claim C7: breadcrumb comparison passes exactly when the number of
expected crumbs without a matching candidate (positional match, or exact
match anywhere under `allowReordering`) is at most `maxMissing`;
confidence is matched/total; and for the spec's 4-crumb example with the
last crumb absent, `maxMissing 0` fails while `maxMissing 1` passes. -/
theorem compareBreadcrumbs_spec :
    (∀ (expected actual : List Breadcrumb) (tolerance : BreadcrumbTolerance),
      ((compareBreadcrumbs expected actual tolerance).status = .pass ↔
        unmatchedCrumbCount actual tolerance expected 0 ≤ tolerance.maxMissing) ∧
      (expected ≠ [] →
        (compareBreadcrumbs expected actual tolerance).confidence =
          (breadcrumbMatchCount actual tolerance expected 0 : ℚ) / (expected.length : ℚ))) ∧
    (compareBreadcrumbs demoCrumbs4 demoCrumbs3 ⟨false, 0⟩).status = .fail ∧
    (compareBreadcrumbs demoCrumbs4 demoCrumbs3 ⟨false, 1⟩).status = .pass := by
  refine ⟨fun expected actual tolerance => ⟨?_, ?_⟩, ?_, ?_⟩
  · have hadd := breadcrumb_count_add actual tolerance expected 0
    have hstat : (compareBreadcrumbs expected actual tolerance).status =
        if expected.length - breadcrumbMatchCount actual tolerance expected 0 ≤
          tolerance.maxMissing then CompareStatus.pass else CompareStatus.fail := rfl
    rw [hstat]
    by_cases hp : expected.length - breadcrumbMatchCount actual tolerance expected 0 ≤
        tolerance.maxMissing
    · rw [if_pos hp]
      constructor
      · intro _; omega
      · intro _; rfl
    · rw [if_neg hp]
      constructor
      · intro h; exact absurd h (by intro h; cases h)
      · intro h; omega
  · intro hne
    have hlen : 0 < expected.length := List.length_pos.mpr hne
    have hadd := breadcrumb_count_add actual tolerance expected 0
    have hle : breadcrumbMatchCount actual tolerance expected 0 ≤ expected.length := by omega
    have hmax : max expected.length 1 = expected.length := by omega
    simp only [compareBreadcrumbs, hmax]
    exact clampConfidence_of_mem
      (div_nonneg (Nat.cast_nonneg _) (Nat.cast_nonneg _))
      ((div_le_one (by exact_mod_cast hlen)).mpr (by exact_mod_cast hle))
  · decide
  · decide

/-- Witness for C7's conditional conjuncts at the concrete 4-crumb trail. -/
theorem compareBreadcrumbs_spec_witness :
    demoCrumbs4 ≠ ([] : List Breadcrumb) ∧
      ((compareBreadcrumbs demoCrumbs4 demoCrumbs3 ⟨false, 1⟩).status = .pass ↔
        unmatchedCrumbCount demoCrumbs3 ⟨false, 1⟩ demoCrumbs4 0 ≤ 1) ∧
      (compareBreadcrumbs demoCrumbs4 demoCrumbs3 ⟨false, 1⟩).confidence =
        (breadcrumbMatchCount demoCrumbs3 ⟨false, 1⟩ demoCrumbs4 0 : ℚ) /
          (demoCrumbs4.length : ℚ) :=
  ⟨by decide, (compareBreadcrumbs_spec.1 demoCrumbs4 demoCrumbs3 ⟨false, 1⟩).1,
    (compareBreadcrumbs_spec.1 demoCrumbs4 demoCrumbs3 ⟨false, 1⟩).2 (by decide)⟩

theorem normalizeHistory_eq (l : List LifecycleEvent) : normalizeHistory l = l := by
  unfold normalizeHistory
  induction l with
  | nil => rfl
  | cons e t ih => rw [List.map_cons, ih]

theorem find_mapped_set (record : FileRecord) :
    ∀ l : List (String × FileRecord),
      (l.map (fun p => if p.1 == record.id then (record.id, record) else p)).find?
          (fun p => p.1 == record.id) =
        if l.any (fun p => p.1 == record.id) then some (record.id, record) else none := by
  intro l
  induction l with
  | nil => rfl
  | cons head tail ih =>
    by_cases hh : head.1 == record.id
    · simp [List.find?, hh]
    · have hh' : (head.1 == record.id) = false := by simpa using hh
      rw [List.map_cons, if_neg hh]
      rw [List.find?]
      simp only [hh']
      rw [ih, List.any_cons, hh', Bool.false_or]

theorem find_appended (record : FileRecord) :
    ∀ l : List (String × FileRecord),
      l.any (fun p => p.1 == record.id) = false →
      (l ++ [(record.id, record)]).find? (fun p => p.1 == record.id) =
        some (record.id, record) := by
  intro l
  induction l with
  | nil => intro _; simp [List.find?]
  | cons head tail ih =>
    intro h
    simp only [List.any_cons, Bool.or_eq_false_iff] at h
    simp only [List.cons_append]
    rw [List.find?]
    simp only [h.1]
    exact ih h.2

theorem storeGet_storeSet_self (store : RecipeStoreState) (record : FileRecord) :
    storeGet (storeSet store record) record.id = some record := by
  unfold storeGet storeSet
  by_cases h : store.any (fun p => p.1 == record.id)
  · rw [if_pos h, find_mapped_set record store, if_pos h]
    rfl
  · rw [if_neg h, find_appended record store (Bool.eq_false_iff.mpr h)]
    rfl

theorem promote_after_set_stable (store : RecipeStoreState) (next : FileRecord)
    (h : next.recipe.lifecycle.state = .stable) (t : ℤ) (o : PromotionOptions) :
    promote (storeSet store next) t next.id o = .error "Recipe is already stable." := by
  have hget := storeGet_storeSet_self store next
  simp only [promote, hget]
  rw [if_pos h]

/-- Claim C4: `promote` fails with the not-found error when no record
exists under the id, with the already-stable error when the stored record
is `stable`, and with the invalid-transition error in any state other than
`draft`; on a `draft` record it appends a `stable` history event, sets
`updatedAt` and `promotedAt`, persists the record, and a second promotion
of the same id (at any time, with any options) is rejected with the
already-stable error.  The draft case assumes the store invariant that a
record is filed under its own id (`record.id = id`), which every store
write maintains. -/
theorem promote_state_machine (store : RecipeStoreState) (nowTime : ℤ) (id : String)
    (options : PromotionOptions) :
    (storeGet store id = none →
      promote store nowTime id options = .error ("Recipe " ++ id ++ " not found.")) ∧
    (∀ record, storeGet store id = some record →
      record.recipe.lifecycle.state = .stable →
      promote store nowTime id options = .error "Recipe is already stable.") ∧
    (∀ record, storeGet store id = some record →
      record.recipe.lifecycle.state ≠ .stable →
      record.recipe.lifecycle.state ≠ .draft →
      promote store nowTime id options = .error "Only draft recipes can be promoted.") ∧
    (∀ record, storeGet store id = some record →
      record.id = id →
      record.recipe.lifecycle.state = .draft →
      ∃ store2 stored,
        promote store nowTime id options = .ok (store2, stored) ∧
        stored.recipe.lifecycle.state = .stable ∧
        stored.recipe.lifecycle.history = record.recipe.lifecycle.history ++
          [{ state := .stable, «at» := options.whenAt.getD nowTime, actor := options.actor,
             notes := some (options.notes.getD "Promoted to stable") }] ∧
        stored.recipe.updatedAt = options.whenAt.getD nowTime ∧
        stored.updatedAt = options.whenAt.getD nowTime ∧
        stored.promotedAt = some (options.whenAt.getD nowTime) ∧
        (∀ nowTime2 options2,
          promote store2 nowTime2 id options2 = .error "Recipe is already stable.")) := by
  refine ⟨?_, ?_, ?_, ?_⟩
  · intro h
    simp only [promote, h]
  · intro record h hstable
    simp only [promote, h]
    rw [if_pos hstable]
  · intro record h hns hnd
    simp only [promote, h]
    rw [if_neg hns, if_pos hnd]
  · intro record h hid hdraft
    have hns : ¬ record.recipe.lifecycle.state = LifecycleState.stable := by
      rw [hdraft]; intro hc; cases hc
    have hnd : ¬ record.recipe.lifecycle.state ≠ LifecycleState.draft := by
      rw [hdraft]; intro hc; exact hc rfl
    refine ⟨storeSet store (promoteNext record nowTime options),
      hydrate (promoteNext record nowTime options), ?_, ?_, ?_, ?_, ?_, ?_, ?_⟩
    · simp only [promote, h]
      rw [if_neg hns, if_neg hnd]
      rfl
    · rfl
    · show normalizeHistory (normalizeHistory record.recipe.lifecycle.history ++ _) = _
      rw [normalizeHistory_eq, normalizeHistory_eq]
    · rfl
    · rfl
    · rfl
    · intro nowTime2 options2
      rw [← hid]
      exact promote_after_set_stable store (promoteNext record nowTime options) rfl
        nowTime2 options2

/-- Witness for C4 exercising all four branches on the demo store. -/
theorem promote_state_machine_witness :
    promote demoStore 5 "missing" {} = .error ("Recipe " ++ "missing" ++ " not found.") ∧
      promote demoStore 5 "r2" {} = .error "Recipe is already stable." ∧
      promote demoStore 5 "r3" {} = .error "Only draft recipes can be promoted." ∧
      (∃ store2 stored, promote demoStore 5 "r1" {} = .ok (store2, stored) ∧
        stored.recipe.lifecycle.state = .stable ∧
        stored.promotedAt = some 5 ∧
        (∀ nowTime2 options2,
          promote store2 nowTime2 "r1" options2 = .error "Recipe is already stable.")) := by
  refine ⟨(promote_state_machine demoStore 5 "missing" {}).1 rfl,
    (promote_state_machine demoStore 5 "r2" {}).2.1 stableRecord rfl rfl,
    (promote_state_machine demoStore 5 "r3" {}).2.2.1 retiredRecord rfl (by decide) (by decide),
    ?_⟩
  obtain ⟨store2, stored, h1, h2, _, _, _, h6, h7⟩ :=
    (promote_state_machine demoStore 5 "r1" {}).2.2.2 draftRecord rfl rfl rfl
  exact ⟨store2, stored, h1, h2, h6, h7⟩

/-- Claim C2: whenever the configured budget has `maxPasses < 3`, the
orchestration slice throws `Agent orchestration slice requires at least
three passes.` before looking up the rule set and before any pass runs
(the executed-pass log is empty), and no `OrchestrationResult` is
produced. -/
theorem orchestration_budget_refusal (inputs : OrchestrationInputs)
    (h : (createBudget (inputs.clock 0) inputs.budgetOverride).maxPasses < 3) :
    runAgentOrchestrationSlice inputs =
      (.error "Agent orchestration slice requires at least three passes.", []) := by
  unfold runAgentOrchestrationSlice
  rw [if_pos h]

/-- Witness for C2 with `maxPasses = 2`. -/
theorem orchestration_budget_refusal_witness :
    runAgentOrchestrationSlice twoPassInputs =
      (.error "Agent orchestration slice requires at least three passes.", []) :=
  orchestration_budget_refusal twoPassInputs (by decide)

/-- Claim C9: `executeRecipe` is deterministic — two invocations on the
same parsed document and recipe agree on the entire result (product record
and per-field values).  The embedding's signature witnesses the second
half of the claim: the computation is a pure function of the parsed
document and the recipe alone, with no rule lookup, tool provider or
budget guard to consult. -/
theorem executeRecipe_deterministic (parseProduct : ProductInput → Except (List String) Product)
    (extract : FieldRecipe → JsValue) (recipe : Recipe) (r1 r2 : RecipeExecutionResult)
    (h1 : executeRecipe parseProduct extract recipe = .ok r1)
    (h2 : executeRecipe parseProduct extract recipe = .ok r2) : r1 = r2 := by
  rw [h1] at h2
  exact Except.ok.inj h2

/-- Witness for C9: the sample execution succeeds and the theorem applies
to its two (identical) outcomes. -/
theorem executeRecipe_deterministic_witness :
    executeRecipe demoParse demoExtract sampleRecipe = .ok demoExecutionResult ∧
      demoExecutionResult = demoExecutionResult :=
  ⟨rfl, executeRecipe_deterministic demoParse demoExtract sampleRecipe
    demoExecutionResult demoExecutionResult rfl rfl⟩

theorem assignRequired_error_of_missing (values : List (FieldId × JsValue)) :
    ∀ (fids : List FieldId) (productInput : ProductInput) (fieldId : FieldId),
      fieldId ∈ fids → isMissingExecute (jsMapGet values fieldId) = true →
      ∃ f, f ∈ fids ∧ isMissingExecute (jsMapGet values f) = true ∧
        assignRequiredFields values productInput fids =
          .error ("Missing required field \"" ++ f.name ++ "\" when executing recipe.") := by
  intro fids
  induction fids with
  | nil => intro productInput fieldId hmem; cases hmem
  | cons head rest ih =>
    intro productInput fieldId hmem hmiss
    by_cases hh : isMissingExecute (jsMapGet values head) = true
    · refine ⟨head, List.mem_cons_self _ _, hh, ?_⟩
      simp only [assignRequiredFields]
      rw [if_pos hh]
    · have hfid : fieldId ∈ rest := by
        rcases List.mem_cons.mp hmem with heq | htail
        · exact absurd (heq ▸ hmiss) hh
        · exact htail
      obtain ⟨f, hf1, hf2, hf3⟩ :=
        ih (assignProductValue productInput head ((jsMapGet values head).getD .undefined)) fieldId
          hfid hmiss
      refine ⟨f, List.mem_cons_of_mem _ hf1, hf2, ?_⟩
      simp only [assignRequiredFields]
      rw [if_neg hh]
      exact hf3

/-- Claim C10: when any required field (title, canonicalUrl, price,
images) extracts to `undefined`, `null` or an empty array, `executeRecipe`
throws an error naming a required field whose extraction is missing (the
first such field in the required order) instead of returning a result. -/
theorem executeRecipe_missing_required (parseProduct : ProductInput → Except (List String) Product)
    (extract : FieldRecipe → JsValue) (recipe : Recipe) (fieldId : FieldId)
    (hmem : fieldId ∈ requiredFields)
    (hmiss : isMissingExecute
      (jsMapGet (buildExtractedValues extract recipe.target.fields) fieldId) = true) :
    ∃ f, f ∈ requiredFields ∧
      isMissingExecute (jsMapGet (buildExtractedValues extract recipe.target.fields) f) = true ∧
      executeRecipe parseProduct extract recipe =
        .error ("Missing required field \"" ++ f.name ++ "\" when executing recipe.") := by
  obtain ⟨f, h1, h2, h3⟩ :=
    assignRequired_error_of_missing (buildExtractedValues extract recipe.target.fields)
      requiredFields {} fieldId hmem hmiss
  refine ⟨f, h1, h2, ?_⟩
  simp only [executeRecipe]
  rw [h3]

/-- Witness for C10: with the price extraction missing, execution throws
the missing-price error. -/
theorem executeRecipe_missing_required_witness :
    ∃ f, f ∈ requiredFields ∧
      isMissingExecute
        (jsMapGet (buildExtractedValues demoExtractNoPrice sampleRecipe.target.fields) f) = true ∧
      executeRecipe demoParse demoExtractNoPrice sampleRecipe =
        .error ("Missing required field \"" ++ f.name ++ "\" when executing recipe.") :=
  executeRecipe_missing_required demoParse demoExtractNoPrice sampleRecipe .price
    (by decide) (by decide)

theorem compareText_confidence_nonneg (e a : String) (t : TextTolerance) :
    0 ≤ (compareText e a t).confidence :=
  clampConfidence_nonneg _

theorem compareText_confidence_le_one (e a : String) (t : TextTolerance) :
    (compareText e a t).confidence ≤ 1 :=
  clampConfidence_le_one _

theorem compareMoney_confidence_nonneg (e a : Money) (t : MoneyTolerance) :
    0 ≤ (compareMoney e a t).confidence :=
  clampConfidence_nonneg _

theorem compareMoney_confidence_le_one (e a : Money) (t : MoneyTolerance) :
    (compareMoney e a t).confidence ≤ 1 :=
  clampConfidence_le_one _

theorem compareUrl_confidence_nonneg (ops : UrlOps) (e a : String) (t : UrlOrImageTolerance) :
    0 ≤ (compareUrl ops e a t).confidence := by
  simp only [compareUrl]
  split <;> norm_num

theorem compareUrl_confidence_le_one (ops : UrlOps) (e a : String) (t : UrlOrImageTolerance) :
    (compareUrl ops e a t).confidence ≤ 1 := by
  simp only [compareUrl]
  split <;> norm_num

theorem compareImageArray_confidence_nonneg (ops : UrlOps) (e a : List String)
    (t : ImageTolerance) : 0 ≤ (compareImageArray ops e a t).confidence :=
  clampConfidence_nonneg _

theorem compareImageArray_confidence_le_one (ops : UrlOps) (e a : List String)
    (t : ImageTolerance) : (compareImageArray ops e a t).confidence ≤ 1 :=
  clampConfidence_le_one _

theorem compareRating_confidence_nonneg (e a : AggregateRating) (t : RatingTolerance) :
    0 ≤ (compareRating e a t).confidence :=
  clampConfidence_nonneg _

theorem compareRating_confidence_le_one (e a : AggregateRating) (t : RatingTolerance) :
    (compareRating e a t).confidence ≤ 1 :=
  clampConfidence_le_one _

theorem compareBreadcrumbs_confidence_nonneg (e a : List Breadcrumb) (t : BreadcrumbTolerance) :
    0 ≤ (compareBreadcrumbs e a t).confidence :=
  clampConfidence_nonneg _

theorem compareBreadcrumbs_confidence_le_one (e a : List Breadcrumb) (t : BreadcrumbTolerance) :
    (compareBreadcrumbs e a t).confidence ≤ 1 :=
  clampConfidence_le_one _

theorem mismatchOutcome_confidence_nonneg (e : String) :
    0 ≤ (mismatchOutcome e).confidence :=
  le_refl 0

theorem mismatchOutcome_confidence_le_one (e : String) :
    (mismatchOutcome e).confidence ≤ 1 :=
  zero_le_one

theorem compareWithTolerance_confidence_nonneg (ops : UrlOps) (fieldId : FieldId)
    (expected actual : JsValue) (tolerance : RecipeTolerance) :
    0 ≤ (compareWithTolerance ops fieldId expected actual tolerance).confidence := by
  unfold compareWithTolerance
  split
  · exact mismatchOutcome_confidence_nonneg _
  · rcases tolerance with t | t | t | t | t | t <;> dsimp only <;> split_ifs
    · exact compareText_confidence_nonneg _ _ _
    · exact mismatchOutcome_confidence_nonneg _
    · exact compareMoney_confidence_nonneg _ _ _
    · exact mismatchOutcome_confidence_nonneg _
    · exact compareUrl_confidence_nonneg _ _ _ _
    · exact mismatchOutcome_confidence_nonneg _
    · exact compareImageArray_confidence_nonneg _ _ _ _
    · exact compareUrl_confidence_nonneg _ _ _ _
    · exact mismatchOutcome_confidence_nonneg _
    · exact compareRating_confidence_nonneg _ _ _
    · exact mismatchOutcome_confidence_nonneg _
    · exact compareBreadcrumbs_confidence_nonneg _ _ _
    · exact mismatchOutcome_confidence_nonneg _

theorem compareWithTolerance_confidence_le_one (ops : UrlOps) (fieldId : FieldId)
    (expected actual : JsValue) (tolerance : RecipeTolerance) :
    (compareWithTolerance ops fieldId expected actual tolerance).confidence ≤ 1 := by
  unfold compareWithTolerance
  split
  · exact mismatchOutcome_confidence_le_one _
  · rcases tolerance with t | t | t | t | t | t <;> dsimp only <;> split_ifs
    · exact compareText_confidence_le_one _ _ _
    · exact mismatchOutcome_confidence_le_one _
    · exact compareMoney_confidence_le_one _ _ _
    · exact mismatchOutcome_confidence_le_one _
    · exact compareUrl_confidence_le_one _ _ _ _
    · exact mismatchOutcome_confidence_le_one _
    · exact compareImageArray_confidence_le_one _ _ _ _
    · exact compareUrl_confidence_le_one _ _ _ _
    · exact mismatchOutcome_confidence_le_one _
    · exact compareRating_confidence_le_one _ _ _
    · exact mismatchOutcome_confidence_le_one _
    · exact compareBreadcrumbs_confidence_le_one _ _ _
    · exact mismatchOutcome_confidence_le_one _

theorem list_sum_le_length (l : List ℚ) (h : ∀ x ∈ l, x ≤ 1) : l.sum ≤ (l.length : ℚ) := by
  induction l with
  | nil => simp
  | cons a t ih =>
    simp only [List.sum_cons, List.length_cons, Nat.cast_add, Nat.cast_one]
    have ha := h a (List.mem_cons_self _ _)
    have ht := ih (fun x hx => h x (List.mem_cons_of_mem _ hx))
    linarith

theorem validatorAggregate_confidence (fieldResults : List FieldValidationResult)
    (hne : fieldResults ≠ [])
    (hb : ∀ f ∈ fieldResults, 0 ≤ f.confidence ∧ f.confidence ≤ 1) :
    (validatorAggregate fieldResults).confidence =
      ((fieldResults.map (fun f => f.confidence)).sum) / (fieldResults.length : ℚ) := by
  have hlen : 0 < fieldResults.length := List.length_pos.mpr hne
  have hmax : max fieldResults.length 1 = fieldResults.length := by omega
  have hsumnn : 0 ≤ (fieldResults.map (fun f => f.confidence)).sum :=
    List.sum_nonneg (by
      intro x hx
      obtain ⟨f, hf, rfl⟩ := List.mem_map.mp hx
      exact (hb f hf).1)
  have hsumle : (fieldResults.map (fun f => f.confidence)).sum ≤ (fieldResults.length : ℚ) := by
    have := list_sum_le_length (fieldResults.map (fun f => f.confidence)) (by
      intro x hx
      obtain ⟨f, hf, rfl⟩ := List.mem_map.mp hx
      exact (hb f hf).2)
    simpa using this
  show clampConfidence _ = _
  rw [hmax]
  exact clampConfidence_of_mem
    (div_nonneg hsumnn (Nat.cast_nonneg _))
    ((div_le_one (by exact_mod_cast hlen)).mpr hsumle)

theorem validatorAggregate_status (fieldResults : List FieldValidationResult) :
    (validatorAggregate fieldResults).status = .pass ↔
      ∀ f ∈ fieldResults, f.status = .pass := by
  have hstat : (validatorAggregate fieldResults).status =
      if fieldResults.all (fun f => f.status == CompareStatus.pass) then
        CompareStatus.pass else CompareStatus.fail := rfl
  rw [hstat]
  by_cases hall : fieldResults.all (fun f => f.status == CompareStatus.pass) = true
  · rw [if_pos hall]
    constructor
    · intro _ f hf
      have := List.all_eq_true.mp hall f hf
      exact beq_iff_eq.mp (by simpa using this)
    · intro _; rfl
  · rw [if_neg hall]
    constructor
    · intro h; exact absurd h (by intro h; cases h)
    · intro h
      exact absurd (List.all_eq_true.mpr (fun f hf => by simpa using h f hf)) hall

theorem validatorAggregate_critical (fieldResults : List FieldValidationResult)
    (f : FieldValidationResult) (hf : f ∈ fieldResults)
    (hc : f.fieldId = .title ∨ f.fieldId = .price) (hfail : f.status = .fail) :
    ∃ c ∈ fieldResults, (c.fieldId = .title ∨ c.fieldId = .price) ∧ c.status = .fail ∧
      (validatorAggregate fieldResults).stopReason =
        some ("Critical field " ++ c.fieldId.name ++ " failed validation") := by
  have hpf : (f.status == CompareStatus.fail &&
      (f.fieldId == FieldId.title || f.fieldId == FieldId.price)) = true := by
    rw [hfail]
    rcases hc with h | h <;> simp [h]
  have hsome : (fieldResults.find? (fun g => g.status == CompareStatus.fail &&
      (g.fieldId == FieldId.title || g.fieldId == FieldId.price))).isSome := by
    rw [List.find?_isSome]
    exact ⟨f, hf, hpf⟩
  obtain ⟨c, hcfind⟩ := Option.isSome_iff_exists.mp hsome
  have hpc := List.find?_some hcfind
  have hcmem := List.mem_of_find?_eq_some hcfind
  have hcrit : c.status = CompareStatus.fail ∧
      (c.fieldId = FieldId.title ∨ c.fieldId = FieldId.price) := by
    simpa using hpc
  have hnall : fieldResults.all (fun g => g.status == CompareStatus.pass) = false := by
    rw [Bool.eq_false_iff]
    intro hall
    have := List.all_eq_true.mp hall f hf
    rw [hfail] at this
    simp at this
  refine ⟨c, hcmem, hcrit.2, hcrit.1, ?_⟩
  show (if (if fieldResults.all (fun g => g.status == CompareStatus.pass) then
      CompareStatus.pass else CompareStatus.fail) == CompareStatus.fail then
      (fieldResults.find? (fun g => g.status == CompareStatus.fail &&
        (g.fieldId == FieldId.title || g.fieldId == FieldId.price))).map
        (fun g => "Critical field " ++ g.fieldId.name ++ " failed validation")
    else none) = _
  rw [hnall, hcfind]
  rfl

/-- Claim C6: when no required field is missing and the assembled record
passes schema validation, the validator's overall confidence is the
arithmetic mean of the per-field confidences, the overall status is pass
iff every per-field comparison passes, and a failing critical field
(title or price) forces a stop reason naming a failing critical field
(the first one found). -/
theorem validator_aggregation (ops : UrlOps)
    (parseProduct : ProductInput → Except (List String) Product)
    (extract : FieldRecipe → JsValue) (recipe : Recipe) (expected actualProduct : Product)
    (hmissing : missingRequiredOf extract recipe = [])
    (hparse : parseProduct
      (validatorProductInput (buildExtractedValues extract recipe.target.fields)) =
        .ok actualProduct)
    (hfields : recipe.target.fields ≠ []) :
    ((validateRecipeAgainstDocument ops parseProduct extract recipe expected).confidence =
      (((validateRecipeAgainstDocument ops parseProduct extract recipe expected).fieldResults.map
          (fun f => f.confidence)).sum) /
        ((validateRecipeAgainstDocument ops parseProduct extract recipe
          expected).fieldResults.length : ℚ)) ∧
    ((validateRecipeAgainstDocument ops parseProduct extract recipe expected).status = .pass ↔
      ∀ f ∈ (validateRecipeAgainstDocument ops parseProduct extract recipe expected).fieldResults,
        f.status = .pass) ∧
    (∀ f ∈ (validateRecipeAgainstDocument ops parseProduct extract recipe expected).fieldResults,
      (f.fieldId = .title ∨ f.fieldId = .price) → f.status = .fail →
      ∃ c ∈ (validateRecipeAgainstDocument ops parseProduct extract recipe expected).fieldResults,
        (c.fieldId = .title ∨ c.fieldId = .price) ∧ c.status = .fail ∧
        (validateRecipeAgainstDocument ops parseProduct extract recipe expected).stopReason =
          some ("Critical field " ++ c.fieldId.name ++ " failed validation")) := by
  have hval : validateRecipeAgainstDocument ops parseProduct extract recipe expected =
      validatorAggregate (validatorFieldResults ops recipe expected actualProduct) := by
    simp only [validateRecipeAgainstDocument]
    rw [hmissing]
    simp only [List.length_nil, gt_iff_lt, lt_self_iff_false, if_false]
    rw [hparse]
  have hbounds : ∀ f ∈ validatorFieldResults ops recipe expected actualProduct,
      0 ≤ f.confidence ∧ f.confidence ≤ 1 := by
    intro f hf
    obtain ⟨field, hfield, rfl⟩ := List.mem_map.mp hf
    exact ⟨compareWithTolerance_confidence_nonneg _ _ _ _ _,
      compareWithTolerance_confidence_le_one _ _ _ _ _⟩
  have hne : validatorFieldResults ops recipe expected actualProduct ≠ [] := by
    intro h
    exact hfields (List.map_eq_nil_iff.mp h)
  refine ⟨?_, ?_, ?_⟩
  · rw [hval]
    exact validatorAggregate_confidence _ hne hbounds
  · rw [hval]
    exact validatorAggregate_status _
  · rw [hval]
    intro f hf hcrit hfail
    exact validatorAggregate_critical _ f hf hcrit hfail

/-- Witness for C6 on the demo document where the sample recipe's four
required fields extract successfully and the schema parser accepts. -/
theorem validator_aggregation_witness :
    ((validateRecipeAgainstDocument demoOps demoParse demoExtract sampleRecipe
        sampleProduct).confidence =
      (((validateRecipeAgainstDocument demoOps demoParse demoExtract sampleRecipe
          sampleProduct).fieldResults.map (fun f => f.confidence)).sum) /
        ((validateRecipeAgainstDocument demoOps demoParse demoExtract sampleRecipe
          sampleProduct).fieldResults.length : ℚ)) ∧
    ((validateRecipeAgainstDocument demoOps demoParse demoExtract sampleRecipe
        sampleProduct).status = .pass ↔
      ∀ f ∈ (validateRecipeAgainstDocument demoOps demoParse demoExtract sampleRecipe
          sampleProduct).fieldResults, f.status = .pass) :=
  ⟨(validator_aggregation demoOps demoParse demoExtract sampleRecipe sampleProduct sampleProduct
      (by decide) rfl (by intro h; simpa [sampleRecipe] using congrArg List.length h)).1,
    (validator_aggregation demoOps demoParse demoExtract sampleRecipe sampleProduct sampleProduct
      (by decide) rfl (by intro h; simpa [sampleRecipe] using congrArg List.length h)).2.1⟩

/-- Claim C3: if any required field (title, canonicalUrl, price, images)
extracts to an empty or undefined value (or an empty array), the validator
returns immediately with status `fail`, confidence 0, and a stop reason
naming the missing fields; the result is identical for every schema
parser and URL parser, witnessing that neither record-schema validation
nor per-field tolerance scoring runs. -/
theorem validator_missing_short_circuit (ops : UrlOps)
    (parseProduct : ProductInput → Except (List String) Product)
    (extract : FieldRecipe → JsValue) (recipe : Recipe) (expected : Product) (fieldId : FieldId)
    (hmem : fieldId ∈ requiredFields)
    (hmiss : isMissingRequired
      (jsMapGet (buildExtractedValues extract recipe.target.fields) fieldId) = true) :
    fieldId ∈ missingRequiredOf extract recipe ∧
    (validateRecipeAgainstDocument ops parseProduct extract recipe expected).status = .fail ∧
    (validateRecipeAgainstDocument ops parseProduct extract recipe expected).confidence = 0 ∧
    (validateRecipeAgainstDocument ops parseProduct extract recipe expected).stopReason =
      some ("Missing required fields: " ++
        String.intercalate ", " ((missingRequiredOf extract recipe).map FieldId.name)) ∧
    (validateRecipeAgainstDocument ops parseProduct extract recipe expected).errors =
      ["Missing required fields: " ++
        String.intercalate ", " ((missingRequiredOf extract recipe).map FieldId.name)] ∧
    (∀ (ops2 : UrlOps) (parseProduct2 : ProductInput → Except (List String) Product),
      validateRecipeAgainstDocument ops2 parseProduct2 extract recipe expected =
        validateRecipeAgainstDocument ops parseProduct extract recipe expected) := by
  have hin : fieldId ∈ missingRequiredOf extract recipe :=
    List.mem_filter.mpr ⟨hmem, hmiss⟩
  have hpos : 0 < (missingRequiredOf extract recipe).length :=
    List.length_pos.mpr (List.ne_nil_of_mem hin)
  refine ⟨hin, ?_, ?_, ?_, ?_, ?_⟩
  · simp only [validateRecipeAgainstDocument]
    rw [if_pos hpos]
  · simp only [validateRecipeAgainstDocument]
    rw [if_pos hpos]
  · simp only [validateRecipeAgainstDocument]
    rw [if_pos hpos]
  · simp only [validateRecipeAgainstDocument]
    rw [if_pos hpos]
  · intro ops2 parseProduct2
    simp only [validateRecipeAgainstDocument]
    rw [if_pos hpos, if_pos hpos]

/-- Witness for C3: removing the price extraction short-circuits the
validator with a stop reason naming price. -/
theorem validator_missing_short_circuit_witness :
    FieldId.price ∈ missingRequiredOf demoExtractNoPrice sampleRecipe ∧
      (validateRecipeAgainstDocument demoOps demoParse demoExtractNoPrice sampleRecipe
        sampleProduct).status = .fail ∧
      (validateRecipeAgainstDocument demoOps demoParse demoExtractNoPrice sampleRecipe
        sampleProduct).confidence = 0 ∧
      (validateRecipeAgainstDocument demoOps demoParse demoExtractNoPrice sampleRecipe
        sampleProduct).stopReason =
        some ("Missing required fields: " ++ String.intercalate ", "
          ((missingRequiredOf demoExtractNoPrice sampleRecipe).map FieldId.name)) :=
  let h := validator_missing_short_circuit demoOps demoParse demoExtractNoPrice sampleRecipe
    sampleProduct .price (by decide) (by decide)
  ⟨h.1, h.2.1, h.2.2.1, h.2.2.2.1⟩

theorem findMatchingSelector_eq_none (query : String → Except String HtmlQueryResult)
    (predicate : List HtmlQueryMatch → Bool) :
    ∀ selectors : List String,
      selectors.all (fun s => candidateFails predicate (query s)) = true →
      findMatchingSelector query predicate selectors = none := by
  intro selectors
  induction selectors with
  | nil => intro _; rfl
  | cons s rest ih =>
    intro h
    have hparts := List.all_cons .. ▸ h
    have hs : candidateFails predicate (query s) = true := (Bool.and_eq_true_iff.mp hparts).1
    have hrest := (Bool.and_eq_true_iff.mp hparts).2
    simp only [findMatchingSelector]
    cases hq : query s with
    | error e => exact ih hrest
    | ok result =>
      rw [hq] at hs
      simp only [candidateFails] at hs
      dsimp only
      by_cases he : result.matches.isEmpty
      · rw [if_pos he]
        exact ih hrest
      · rw [if_neg he]
        have hp : predicate result.matches = false := by
          rcases Bool.or_eq_true_iff.mp hs with h' | h'
          · exact absurd h' he
          · simpa using h'
        rw [hp, if_neg (by simp)]
        exact ih hrest

/-- Claim C5: when no attribute-keyword candidate selector satisfies the
field's acceptance predicate and the full-tree scored scan does not
produce a selector whose matches satisfy it either, `deriveSelector`
throws the hard error naming the field — it never returns silently. -/
theorem deriveSelector_required_failure (elements : List DomElement)
    (query : String → Except String HtmlQueryResult) (options : SelectorDerivationOptions)
    (h1 : (limitedSelectors options).all
      (fun s => candidateFails options.predicate (query s)) = true)
    (h2 : fallbackFails elements query options = true) :
    deriveSelector elements query options = .error (deriveSelectorFailure options.field) := by
  have hnone := findMatchingSelector_eq_none query options.predicate _ h1
  unfold deriveSelector
  rw [hnone]
  dsimp only
  by_cases hcond : options.fallbackText.filter (fun s => s ≠ "") ≠ [] ∨ options.keywords ≠ []
  · rw [if_pos hcond]
    unfold fallbackFails at h2
    cases hsel : fallbackSelection elements options with
    | none => rfl
    | some element =>
      rw [hsel] at h2
      dsimp only at h2
      dsimp only
      cases hq : query (buildCssPath element) with
      | error e =>
        rw [hq] at h2
        cases h2
      | ok result =>
        rw [hq] at h2
        dsimp only at h2
        have : ¬ (¬ result.matches.isEmpty = true ∧ options.predicate result.matches = true) := by
          rintro ⟨hne, hp⟩
          rcases Bool.or_eq_true_iff.mp h2 with h' | h'
          · exact hne h'
          · rw [hp] at h'
            cases h'
        dsimp only
        rw [if_neg this]
  · rw [if_neg hcond]

set_option maxRecDepth 4096 in
/-- Witness for C5 on an empty document: every candidate selector matches
nothing and the scored scan selects no element, so derivation throws the
error naming the price field. -/
theorem deriveSelector_required_failure_witness :
    deriveSelector ([] : List DomElement) demoQuery demoSelectorOptions =
      .error (deriveSelectorFailure FieldId.price) ∧
      deriveSelectorFailure FieldId.price =
        "Agent workflow failed to derive a selector for price." :=
  ⟨deriveSelector_required_failure ([] : List DomElement) demoQuery demoSelectorOptions
    (by decide) (by decide), rfl⟩
